/-
Verification of the GCP cluster-infrastructure convergence engine
(spectrocloud/cluster-api-provider-gcp).

This file gives a shallow embedding of the reconciliation services:
  * the networks service (cloud/services/compute/networks/reconcile.go):
    Reconcile, Delete, createOrGetNetwork, createOrGetSubNetwork,
    createOrGetRouter;
  * the firewalls service (cloud/services/compute/firewalls.go):
    ReconcileFirewalls, DeleteFirewalls, getFirewallNetworkName,
    getFirewallSpecs;
  * the legacy compute service (network.go / bastion.go in the v1alpha2/3
    tree): createCloudNat, ReconcileBastion, DeleteBastion.

The cloud provider is modelled as an explicit state (association lists from
resource keys to resources).  Get returns the stored resource or NotFound.
Insert stores the given object at the key.  Delete removes the resource, or
returns NotFound when it is absent; delete calls may additionally be given an
injected provider response (a "fault") to model races and transient failures
that the real provider can produce.  Asynchronous operations complete
synchronously in the model, so waiting on an operation is the identity.
Every mutating provider call (Insert / Delete / Patch) is recorded in a
trace, in the order it is issued.
-/

import Mathlib

namespace CAPG

/-- Provider-level errors: NotFound, or any other error (carrying a message).
This models the classification made by gcperrors.IsNotFound in the source. -/
inductive GCPError where
  | notFound
  | other (msg : String)
  deriving DecidableEq, Repr

/-- gcperrors.IsNotFound. -/
def isNotFound : GCPError → Bool
  | .notFound => true
  | .other _ => false

/-- gcperrors.IgnoreNotFound: drop a NotFound error, keep any other. -/
def ignoreNotFound : Option GCPError → Option GCPError
  | some .notFound => none
  | e => e

deriving instance DecidableEq for Except

/-- strings.HasSuffix, on the character lists (kernel-reducible). -/
def strEndsWith (s suffix : String) : Bool :=
  List.isPrefixOf suffix.data.reverse s.data.reverse

/-- Association-list lookup (the model of a keyed resource collection). -/
def alGet {κ α : Type} [DecidableEq κ] (k : κ) : List (κ × α) → Option α
  | [] => none
  | (k', v) :: rest => if k = k' then some v else alGet k rest

/-- Association-list update: replace the binding of `k` in place, or append. -/
def alSet {κ α : Type} [DecidableEq κ] (k : κ) (v : α) : List (κ × α) → List (κ × α)
  | [] => [(k, v)]
  | (k', v') :: rest => if k = k' then (k, v) :: rest else (k', v') :: alSet k v rest

/-- Association-list removal of every binding of `k`. -/
def alRemove {κ α : Type} [DecidableEq κ] (k : κ) : List (κ × α) → List (κ × α)
  | [] => []
  | (k', v') :: rest => if k = k' then alRemove k rest else (k', v') :: alRemove k rest

/-- compute.Network, restricted to the fields the engine reads. -/
structure Network where
  name : String
  selfLink : String
  autoCreateSubnetworks : Bool
  description : String
  deriving DecidableEq, Repr

/-- compute.Subnetwork, restricted to the fields the engine reads. -/
structure Subnetwork where
  name : String
  region : String
  ipCidrRange : String
  enableFlowLogs : Bool
  network : String
  selfLink : String
  deriving DecidableEq, Repr

/-- compute.RouterNat, restricted to the fields the engine sets. -/
structure RouterNat where
  name : String
  natIpAllocateOption : String
  sourceSubnetworkIpRangesToNat : String
  deriving DecidableEq, Repr

/-- compute.Router, restricted to the fields the engine reads. -/
structure Router where
  name : String
  network : String
  description : String
  selfLink : String
  nats : List RouterNat
  deriving DecidableEq, Repr

/-- compute.Route, restricted to the fields the engine reads. -/
structure Route where
  name : String
  network : String
  description : String
  deriving DecidableEq, Repr

/-- compute.FirewallAllowed. -/
structure FirewallAllowed where
  ipProtocol : String
  ports : List String
  deriving DecidableEq, Repr

/-- compute.Firewall, restricted to the fields the engine reads. -/
structure Firewall where
  name : String
  network : String
  allowed : List FirewallAllowed
  direction : String
  sourceRanges : List String
  sourceTags : List String
  targetTags : List String
  selfLink : String
  deriving DecidableEq, Repr

/-- compute.Instance, restricted to the fields the bastion reconciler reads. -/
structure Instance where
  name : String
  zone : String
  machineType : String
  canIpForward : Bool
  network : String
  tags : List String
  sourceImage : String
  selfLink : String
  status : String
  deriving DecidableEq, Repr

/-- One recorded mutating provider call.  Global resources are keyed by name,
regional resources by (name, region), instances by (name, zone). -/
inductive Call where
  | networkInsert (name : String)
  | networkDelete (name : String)
  | subnetInsert (key : String × String)
  | subnetDelete (key : String × String)
  | routerInsert (key : String × String)
  | routerDelete (key : String × String)
  | routerPatch (key : String × String)
  | routeDelete (name : String)
  | firewallInsert (name : String)
  | firewallDelete (name : String)
  | instanceInsert (key : String × String)
  | instanceDelete (key : String × String)
  deriving DecidableEq, Repr

/-- The provider state: every resource collection, keyed as the clients key
them, plus injected responses ("faults") for delete calls: when a delete
fault is recorded for a key, the provider answers that delete call with the
given error and leaves the state unchanged. -/
structure CloudState where
  networks : List (String × Network)
  subnetworks : List ((String × String) × Subnetwork)
  routers : List ((String × String) × Router)
  routes : List (String × Route)
  firewalls : List (String × Firewall)
  instances : List ((String × String) × Instance)
  networkDeleteFaults : List (String × GCPError)
  routerDeleteFaults : List ((String × String) × GCPError)
  subnetDeleteFaults : List ((String × String) × GCPError)
  routeDeleteFaults : List (String × GCPError)
  deriving DecidableEq, Repr

/-- The status object written back through the scope: network self-link and
router self-link (s.scope.Network()), the firewall-rule name-to-self-link
mapping, and the bastion fields. -/
structure NetworkStatus where
  selfLink : Option String
  router : Option String
  firewallRules : List (String × String)
  bastionSelfLink : Option String
  bastionStatus : Option String
  deriving DecidableEq, Repr

/-- The scope: declared inputs consumed by the services. -/
structure Scope where
  name : String
  networkName : String
  region : String
  isSharedVpc : Bool
  networkSpec : Network
  subnetworkSpec : List Subnetwork
  natRouterSpec : Router
  networkSelfLink : String
  loadBalancerBackendPort : Int
  deriving DecidableEq, Repr

/-- Modelled from the spec (infrav1.ClusterTagKey is not part of the given
sources): "ownership/description tag = a fixed string keyed by cluster
name".  The exact constant prefix is immaterial to every claim; only the
deterministic derivation from the cluster name matters. -/
def ClusterTagKey (name : String) : String := "capg-cluster-" ++ name

/-- Modelled from the spec (the v1alpha3 constant is not part of the given
sources): role tag constant used in the generated firewall-rule names. -/
def APIServerRoleTagValue : String := "apiserver"

/-- Modelled from the spec (Service.checkOrWaitForDeleteOp is not part of the
given sources; only its callers are): "Each delete tolerates 'already
absent'" — a NotFound result from a delete call is treated as success, any
other error is kept, and on success the delete operation is waited on (the
wait is the identity in this synchronous model). -/
def checkOrWaitForDeleteOp : Option GCPError → Option GCPError
  | some e => if isNotFound e then none else some e
  | none => none

/-- networks.Delete client call (new-style service): answer an injected
fault if one is recorded, otherwise NotFound when absent, otherwise remove. -/
def netDelete (k : String) (s : CloudState) : Except GCPError Unit × CloudState :=
  match alGet k s.networkDeleteFaults with
  | some e => (.error e, s)
  | none =>
    match alGet k s.networks with
    | none => (.error .notFound, s)
    | some _ => (.ok (), { s with networks := alRemove k s.networks })

/-- routers.Delete client call. -/
def routerClientDelete (k : String × String) (s : CloudState) :
    Except GCPError Unit × CloudState :=
  match alGet k s.routerDeleteFaults with
  | some e => (.error e, s)
  | none =>
    match alGet k s.routers with
    | none => (.error .notFound, s)
    | some _ => (.ok (), { s with routers := alRemove k s.routers })

/-- subnetworks.Delete client call. -/
def subnetClientDelete (k : String × String) (s : CloudState) :
    Except GCPError Unit × CloudState :=
  match alGet k s.subnetDeleteFaults with
  | some e => (.error e, s)
  | none =>
    match alGet k s.subnetworks with
    | none => (.error .notFound, s)
    | some _ => (.ok (), { s with subnetworks := alRemove k s.subnetworks })

/-- routes.Delete client call. -/
def routeClientDelete (k : String) (s : CloudState) :
    Except GCPError Unit × CloudState :=
  match alGet k s.routeDeleteFaults with
  | some e => (.error e, s)
  | none =>
    match alGet k s.routes with
    | none => (.error .notFound, s)
    | some _ => (.ok (), { s with routes := alRemove k s.routes })

/-- firewalls.Delete client call (no injected faults are modelled for
firewall deletes; no claim exercises them). -/
def firewallClientDelete (k : String) (s : CloudState) :
    Except GCPError Unit × CloudState :=
  match alGet k s.firewalls with
  | none => (.error .notFound, s)
  | some _ => (.ok (), { s with firewalls := alRemove k s.firewalls })

/-- instances.Delete client call. -/
def instanceClientDelete (k : String × String) (s : CloudState) :
    Except GCPError Unit × CloudState :=
  match alGet k s.instances with
  | none => (.error .notFound, s)
  | some _ => (.ok (), { s with instances := alRemove k s.instances })

/-- routes.List with the filter Regexp("description", k8sNodeRouteTag):
routes whose description carries the node-route tag. -/
def listRoutesByDescription (tag : String) (s : CloudState) : List Route :=
  (s.routes.map (·.2)).filter (fun r => r.description = tag)

def k8sNodeRouteTag : String := "k8s-node-route"

/-- Result of a sub-step of a service call: a value or an error, the
provider state afterwards, and the mutating calls issued. -/
structure OpResult (α : Type) where
  res : Except GCPError α
  state : CloudState
  calls : List Call
  deriving Repr, DecidableEq

/-- Result of a full service call, which additionally carries the status
object written back through the scope. -/
structure SvcResult where
  res : Except GCPError Unit
  state : CloudState
  status : NetworkStatus
  calls : List Call
  deriving Repr, DecidableEq

namespace Networks

/-- Service.createOrGetNetwork: look the network up by name; when NotFound,
fail if shared-VPC mode is declared, otherwise insert the declared spec and
re-fetch it. -/
def createOrGetNetwork (scope : Scope) (s : CloudState) : OpResult Network :=
  match alGet scope.networkName s.networks with
  | some n => ⟨.ok n, s, []⟩
  | none =>
    if scope.isSharedVpc then ⟨.error .notFound, s, []⟩
    else
      let s1 := { s with networks := alSet scope.networkName scope.networkSpec s.networks }
      match alGet scope.networkName s1.networks with
      | some n => ⟨.ok n, s1, [.networkInsert scope.networkName]⟩
      | none => ⟨.error .notFound, s1, [.networkInsert scope.networkName]⟩

/-- Service.createOrGetSubNetwork: look the subnetwork up by name+region;
when NotFound, insert the declared subnet spec and re-fetch it. -/
def createOrGetSubNetwork (subnet : Subnetwork) (s : CloudState) : OpResult Subnetwork :=
  let key := (subnet.name, subnet.region)
  match alGet key s.subnetworks with
  | some sn => ⟨.ok sn, s, []⟩
  | none =>
    let s1 := { s with subnetworks := alSet key subnet s.subnetworks }
    match alGet key s1.subnetworks with
    | some sn => ⟨.ok sn, s1, [.subnetInsert key]⟩
    | none => ⟨.error .notFound, s1, [.subnetInsert key]⟩

/-- The subnet loop of Service.Reconcile: createOrGetSubNetwork for every
declared subnet spec, aborting on the first error. -/
def reconcileSubnetsLoop (subnets : List Subnetwork) (s : CloudState) : OpResult Unit :=
  match subnets with
  | [] => ⟨.ok (), s, []⟩
  | sub :: rest =>
    let o := createOrGetSubNetwork sub s
    match o.res with
    | .error e => ⟨.error e, o.state, o.calls⟩
    | .ok _ =>
      let o2 := reconcileSubnetsLoop rest o.state
      ⟨o2.res, o2.state, o.calls ++ o2.calls⟩

/-- Service.createOrGetRouter: look the NAT router up; when NotFound, fail
if shared-VPC mode is declared, otherwise insert the declared router spec
(with its network reference and ownership description filled in) and
re-fetch it. -/
def createOrGetRouter (scope : Scope) (network : Network) (s : CloudState) :
    OpResult Router :=
  let key := (scope.natRouterSpec.name, scope.region)
  match alGet key s.routers with
  | some r => ⟨.ok r, s, []⟩
  | none =>
    if scope.isSharedVpc then ⟨.error .notFound, s, []⟩
    else
      let spec := { scope.natRouterSpec with
                    network := network.selfLink,
                    description := ClusterTagKey scope.name }
      let s1 := { s with routers := alSet key spec s.routers }
      match alGet key s1.routers with
      | some r => ⟨.ok r, s1, [.routerInsert key]⟩
      | none => ⟨.error .notFound, s1, [.routerInsert key]⟩

/-- Go's "if err != nil { return err }" sequencing: an error from a step
aborts the service call with the step's state, the given status and the
step's calls; on success the continuation runs on the step's resulting
state and the step's calls come first in the trace. -/
def opBind {α : Type} (a : OpResult α) (st : NetworkStatus)
    (k : α → CloudState → SvcResult) : SvcResult :=
  match a.res with
  | .error e => ⟨.error e, a.state, st, a.calls⟩
  | .ok v => ⟨(k v a.state).res, (k v a.state).state, (k v a.state).status,
              a.calls ++ (k v a.state).calls⟩

/-- The subnet phase of Service.Reconcile: the loop runs only when the
network is in custom mode. -/
def subnetsReconcileStage (scope : Scope) (network : Network) (s : CloudState) :
    OpResult Unit :=
  if network.autoCreateSubnetworks then ⟨.ok (), s, []⟩
  else reconcileSubnetsLoop scope.subnetworkSpec s

/-- The part of Service.Reconcile after the network has been fetched or
created: record the network self-link, create missing declared subnetworks
when the network is in custom mode, and, when the network's ownership tag
matches the cluster, create-or-adopt the NAT router and record its
self-link. -/
def reconcileTail (scope : Scope) (network : Network) (st : NetworkStatus)
    (s : CloudState) : SvcResult :=
  opBind (subnetsReconcileStage scope network s)
      { st with selfLink := some network.selfLink } (fun _ s2 =>
    if network.description = ClusterTagKey scope.name then
      opBind (createOrGetRouter scope network s2)
          { st with selfLink := some network.selfLink } (fun router s3 =>
        ⟨.ok (), s3,
         { st with selfLink := some network.selfLink,
                   router := some router.selfLink }, []⟩)
    else
      ⟨.ok (), s2, { st with selfLink := some network.selfLink }, []⟩)

/-- Service.Reconcile (networks service): create-or-adopt the network, then
run the tail above. -/
def Reconcile (scope : Scope) (s : CloudState) (st : NetworkStatus) : SvcResult :=
  opBind (createOrGetNetwork scope s) st (fun network s1 =>
    reconcileTail scope network st s1)

/-- The regional key of the NAT router (meta.RegionalKey on the declared
router spec's name). -/
def natRouterKey (scope : Scope) : String × String :=
  (scope.natRouterSpec.name, scope.region)

/-- The router step of Service.Delete (reconcile.go lines 93-105): fetch the
router; when the router exists and its own ownership tag matches the
cluster, delete it, tolerating NotFound. -/
def deleteRouterStep (scope : Scope) (s : CloudState) : OpResult Unit :=
  match alGet (natRouterKey scope) s.routers with
  | none => ⟨.ok (), s, []⟩
  | some router =>
    if router.description = ClusterTagKey scope.name then
      match (routerClientDelete (natRouterKey scope) s).1 with
      | .error e =>
        if isNotFound e then
          ⟨.ok (), (routerClientDelete (natRouterKey scope) s).2,
           [.routerDelete (natRouterKey scope)]⟩
        else
          ⟨.error e, (routerClientDelete (natRouterKey scope) s).2,
           [.routerDelete (natRouterKey scope)]⟩
      | .ok _ =>
        ⟨.ok (), (routerClientDelete (natRouterKey scope) s).2,
         [.routerDelete (natRouterKey scope)]⟩
    else ⟨.ok (), s, []⟩

/-- The subnet loop of Service.Delete (reconcile.go lines 107-122): for each
declared subnet, fetch it (absence skips it) and delete it; any delete
error — NotFound included — aborts. -/
def deleteSubnetsLoop (subnets : List Subnetwork) (s : CloudState) : OpResult Unit :=
  match subnets with
  | [] => ⟨.ok (), s, []⟩
  | sub :: rest =>
    match alGet (sub.name, sub.region) s.subnetworks with
    | none => deleteSubnetsLoop rest s
    | some _ =>
      match (subnetClientDelete (sub.name, sub.region) s).1 with
      | .error e =>
        ⟨.error e, (subnetClientDelete (sub.name, sub.region) s).2,
         [.subnetDelete (sub.name, sub.region)]⟩
      | .ok _ =>
        ⟨(deleteSubnetsLoop rest ((subnetClientDelete (sub.name, sub.region) s).2)).res,
         (deleteSubnetsLoop rest ((subnetClientDelete (sub.name, sub.region) s).2)).state,
         .subnetDelete (sub.name, sub.region) ::
           (deleteSubnetsLoop rest ((subnetClientDelete (sub.name, sub.region) s).2)).calls⟩

/-- The route loop of Service.Delete (reconcile.go lines 132-141): delete
every listed route whose network reference ends with the cluster's network
name; any delete error — NotFound included — aborts. -/
def deleteRoutesLoop (networkName : String) (routes : List Route) (s : CloudState) :
    OpResult Unit :=
  match routes with
  | [] => ⟨.ok (), s, []⟩
  | route :: rest =>
    if strEndsWith route.network networkName then
      match (routeClientDelete route.name s).1 with
      | .error e =>
        ⟨.error e, (routeClientDelete route.name s).2, [.routeDelete route.name]⟩
      | .ok _ =>
        ⟨(deleteRoutesLoop networkName rest ((routeClientDelete route.name s).2)).res,
         (deleteRoutesLoop networkName rest ((routeClientDelete route.name s).2)).state,
         .routeDelete route.name ::
           (deleteRoutesLoop networkName rest ((routeClientDelete route.name s).2)).calls⟩
    else deleteRoutesLoop networkName rest s

/-- The subnet phase of Service.Delete: the loop runs only when the network
is in custom mode. -/
def subnetsDeleteStage (scope : Scope) (network : Network) (s : CloudState) :
    OpResult Unit :=
  if network.autoCreateSubnetworks then ⟨.ok (), s, []⟩
  else deleteSubnetsLoop scope.subnetworkSpec s

/-- The route phase of Service.Delete: list the routes carrying the
node-route description tag and run the route delete loop on them. -/
def routesDeleteStage (scope : Scope) (s : CloudState) : OpResult Unit :=
  deleteRoutesLoop scope.networkName (listRoutesByDescription k8sNodeRouteTag s) s

/-- The final phase of Service.Delete: delete the network itself (no
NotFound tolerance on this delete call). -/
def networkDeleteStage (scope : Scope) (s : CloudState) : OpResult Unit :=
  match (netDelete scope.networkName s).1 with
  | .error e =>
    ⟨.error e, (netDelete scope.networkName s).2, [.networkDelete scope.networkName]⟩
  | .ok _ =>
    ⟨.ok (), (netDelete scope.networkName s).2, [.networkDelete scope.networkName]⟩

/-- Service.Delete (networks service): skip everything (clearing the status
self-links) in shared-VPC mode; treat an absent network as success; return
success without any call when the network's ownership tag does not match;
otherwise delete the router (if owned), the declared subnetworks (in custom
mode), the discovered node routes, and finally the network, clearing the
status self-links on success. -/
def Delete (scope : Scope) (s : CloudState) (st : NetworkStatus) : SvcResult :=
  if scope.isSharedVpc then
    ⟨.ok (), s, { st with router := none, selfLink := none }, []⟩
  else
    match alGet scope.networkName s.networks with
    | none => ⟨.ok (), s, st, []⟩
    | some network =>
      if network.description ≠ ClusterTagKey scope.name then ⟨.ok (), s, st, []⟩
      else
        opBind (deleteRouterStep scope s) st (fun _ s1 =>
          opBind (subnetsDeleteStage scope network s1) st (fun _ s2 =>
            opBind (routesDeleteStage scope s2) st (fun _ s3 =>
              opBind (networkDeleteStage scope s3) st (fun _ s4 =>
                ⟨.ok (), s4, { st with router := none, selfLink := none }, []⟩))))

end Networks

namespace Compute

/-- Go path.Base: the last element of the path; "." for an empty path, "/"
for a path consisting only of slashes; trailing slashes are stripped. -/
def pathBase (p : String) : String :=
  if p = "" then "."
  else
    let segTail := ((p.data.reverse).dropWhile (fun c => c = '/')).takeWhile
        (fun c => c ≠ '/')
    if segTail = [] then "/" else String.mk segTail.reverse

/-- Characters up to (excluding) the first occurrence of `c`. -/
def takeUntilChar (c : Char) : List Char → List Char
  | [] => []
  | x :: rest => if x = c then [] else x :: takeUntilChar c rest

/-- Characters after the first "://", when one occurs. -/
def dropThroughScheme : List Char → Option (List Char)
  | [] => none
  | ':' :: '/' :: '/' :: rest => some rest
  | _ :: rest => dropThroughScheme rest

/-- Characters from the first '/' on (drops a URL authority). -/
def dropUntilSlash : List Char → List Char
  | [] => []
  | x :: rest => if x = '/' then x :: rest else dropUntilSlash rest

/-- The Path component computed by url.Parse: the fragment and query are
split off, and for a URL with a scheme and authority ("scheme://host/...")
the path starts at the first slash after the authority.  url.Parse fails
only on malformed control or percent sequences, which the model treats as
opaque path characters, so parsing is total here. -/
def urlPath (u : String) : String :=
  let chars := takeUntilChar '?' (takeUntilChar '#' u.data)
  match dropThroughScheme chars with
  | none => String.mk chars
  | some rest => String.mk (dropUntilSlash rest)

/-- getFirewallNetworkName: an empty network reference yields an empty name
with no error; otherwise parse the reference as a URL and take the final
path segment. -/
def getFirewallNetworkName (fw : Firewall) : Except GCPError String :=
  if fw.network = "" then .ok ""
  else .ok (pathBase (urlPath fw.network))

/-- Service.getFirewallSpecs: the fixed declared firewall-rule set. -/
def getFirewallSpecs (scope : Scope) : List Firewall :=
  [ { name := "allow-" ++ scope.name ++ "-" ++ APIServerRoleTagValue ++ "-healthchecks"
      network := scope.networkSelfLink
      allowed := [{ ipProtocol := "TCP", ports := [toString scope.loadBalancerBackendPort] }]
      direction := "INGRESS"
      sourceRanges := ["35.191.0.0/16", "130.211.0.0/22"]
      sourceTags := []
      targetTags := [scope.name ++ "-control-plane"]
      selfLink := "" },
    { name := "allow-" ++ scope.name ++ "-" ++ APIServerRoleTagValue ++ "-cluster"
      network := scope.networkSelfLink
      allowed := [{ ipProtocol := "all", ports := [] }]
      direction := "INGRESS"
      sourceRanges := []
      sourceTags := [scope.name ++ "-control-plane", scope.name ++ "-node"]
      targetTags := [scope.name ++ "-control-plane", scope.name ++ "-node"]
      selfLink := "" } ]

/-- The get-or-create loop of Service.ReconcileFirewalls: for each declared
rule, fetch it, insert it when NotFound (waiting on the operation and
re-fetching), and record name -> self-link in the status mapping. -/
def reconcileFirewallsLoop (specs : List Firewall) (s : CloudState)
    (st : NetworkStatus) : SvcResult :=
  match specs with
  | [] => ⟨.ok (), s, st, []⟩
  | spec :: rest =>
    match alGet spec.name s.firewalls with
    | some fw =>
      let st1 := { st with firewallRules := alSet fw.name fw.selfLink st.firewallRules }
      let o := reconcileFirewallsLoop rest s st1
      ⟨o.res, o.state, o.status, o.calls⟩
    | none =>
      let s1 := { s with firewalls := alSet spec.name spec s.firewalls }
      match alGet spec.name s1.firewalls with
      | none => ⟨.error .notFound, s1, st, [.firewallInsert spec.name]⟩
      | some fw =>
        let st1 := { st with firewallRules := alSet fw.name fw.selfLink st.firewallRules }
        let o := reconcileFirewallsLoop rest s1 st1
        ⟨o.res, o.state, o.status, .firewallInsert spec.name :: o.calls⟩

/-- Service.ReconcileFirewalls: get-or-create every declared firewall rule
and record its name -> self-link in the status mapping. -/
def ReconcileFirewalls (scope : Scope) (s : CloudState) (st : NetworkStatus) : SvcResult :=
  reconcileFirewallsLoop (getFirewallSpecs scope) s st

/-- The error component of a client call result (the err value the Go code
passes to checkOrWaitForDeleteOp). -/
def resToErr : Except GCPError Unit → Option GCPError
  | .error e => some e
  | .ok _ => none

/-- The first phase of Service.DeleteFirewalls: delete every rule recorded
in the status mapping, tolerating NotFound, and remove each from the mapping
as it is deleted or confirmed absent. -/
def deleteMappedFirewallsLoop (names : List String) (s : CloudState)
    (st : NetworkStatus) : SvcResult :=
  match names with
  | [] => ⟨.ok (), s, st, []⟩
  | name :: rest =>
    match checkOrWaitForDeleteOp (resToErr (firewallClientDelete name s).1) with
    | some e => ⟨.error e, (firewallClientDelete name s).2, st, [.firewallDelete name]⟩
    | none =>
      ⟨(deleteMappedFirewallsLoop rest ((firewallClientDelete name s).2)
          { st with firewallRules := alRemove name st.firewallRules }).res,
       (deleteMappedFirewallsLoop rest ((firewallClientDelete name s).2)
          { st with firewallRules := alRemove name st.firewallRules }).state,
       (deleteMappedFirewallsLoop rest ((firewallClientDelete name s).2)
          { st with firewallRules := alRemove name st.firewallRules }).status,
       .firewallDelete name ::
         (deleteMappedFirewallsLoop rest ((firewallClientDelete name s).2)
            { st with firewallRules := alRemove name st.firewallRules }).calls⟩

/-- The inner tag loop of the firewall sweep: for every occurrence of the
cluster name among the rule's target tags, delete the rule, tolerating
NotFound. -/
def sweepTagsLoop (clusterName : String) (fwName : String) (tags : List String)
    (s : CloudState) : OpResult Unit :=
  match tags with
  | [] => ⟨.ok (), s, []⟩
  | tt :: rest =>
    if tt = clusterName then
      match checkOrWaitForDeleteOp (resToErr (firewallClientDelete fwName s).1) with
      | some e => ⟨.error e, (firewallClientDelete fwName s).2, [.firewallDelete fwName]⟩
      | none =>
        ⟨(sweepTagsLoop clusterName fwName rest ((firewallClientDelete fwName s).2)).res,
         (sweepTagsLoop clusterName fwName rest ((firewallClientDelete fwName s).2)).state,
         .firewallDelete fwName ::
           (sweepTagsLoop clusterName fwName rest ((firewallClientDelete fwName s).2)).calls⟩
    else sweepTagsLoop clusterName fwName rest s

/-- The sweep of Service.DeleteFirewalls over a provider-wide rule list:
resolve each rule's network reference to a network name, keep rules on the
cluster's network, and delete those whose target tags contain the cluster
name. -/
def sweepFirewalls (scope : Scope) (rules : List Firewall) (s : CloudState) :
    OpResult Unit :=
  match rules with
  | [] => ⟨.ok (), s, []⟩
  | fw :: rest =>
    match getFirewallNetworkName fw with
    | .error e => ⟨.error e, s, []⟩
    | .ok networkName =>
      if networkName = scope.networkName then
        let o := sweepTagsLoop scope.name fw.name fw.targetTags s
        match o.res with
        | .error e => ⟨.error e, o.state, o.calls⟩
        | .ok _ =>
          let o2 := sweepFirewalls scope rest o.state
          ⟨o2.res, o2.state, o.calls ++ o2.calls⟩
      else
        let o2 := sweepFirewalls scope rest s
        ⟨o2.res, o2.state, o2.calls⟩

/-- Service.DeleteFirewalls: delete every rule recorded in the status
mapping, then list every firewall rule in the project and sweep the listed
rules. -/
def DeleteFirewalls (scope : Scope) (s : CloudState) (st : NetworkStatus) : SvcResult :=
  let o1 := deleteMappedFirewallsLoop (st.firewallRules.map (·.1)) s st
  match o1.res with
  | .error e => ⟨.error e, o1.state, o1.status, o1.calls⟩
  | .ok _ =>
    let listed := o1.state.firewalls.map (·.2)
    let o2 := sweepFirewalls scope listed o1.state
    ⟨o2.res, o2.state, o1.status, o1.calls ++ o2.calls⟩

/-- getRouterName: router name = network-router. -/
def getRouterName (network : String) : String := network ++ "-" ++ "router"

/-- getRouterNatName: NAT config name = network-nat. -/
def getRouterNatName (network : String) : String := network ++ "-" ++ "nat"

/-- Service.getRouterNatSpec: the single NAT configuration, with
auto-allocated external IPs and all subnetworks, all IP ranges. -/
def getRouterNatSpec (scope : Scope) : RouterNat :=
  { name := getRouterNatName scope.networkName
    natIpAllocateOption := "AUTO_ONLY"
    sourceSubnetworkIpRangesToNat := "ALL_SUBNETWORKS_ALL_IP_RANGES" }

/-- Service.getRouterSpec (legacy compute service). -/
def getRouterSpec (scope : Scope) (network : Network) : Router :=
  { name := getRouterName network.name
    network := network.selfLink
    description := ""
    selfLink := ""
    nats := [getRouterNatSpec scope] }

/-- Service.createCloudNat (legacy compute service): get the router,
creating it from the router spec when NotFound (waiting and re-fetching);
when the router has no NAT configuration, patch exactly one in and wait;
finally record the router self-link in the status. -/
def createCloudNat (scope : Scope) (network : Network) (s : CloudState)
    (st : NetworkStatus) : SvcResult :=
  let key := (getRouterName scope.networkName, scope.region)
  let fetched : OpResult Router :=
    match alGet key s.routers with
    | some r => ⟨.ok r, s, []⟩
    | none =>
      let spec := getRouterSpec scope network
      let s1 := { s with routers := alSet key spec s.routers }
      match alGet key s1.routers with
      | some r => ⟨.ok r, s1, [.routerInsert key]⟩
      | none => ⟨.error .notFound, s1, [.routerInsert key]⟩
  match fetched.res with
  | .error e => ⟨.error e, fetched.state, st, fetched.calls⟩
  | .ok router =>
    if router.nats.isEmpty then
      let patched := { router with nats := [getRouterNatSpec scope] }
      let s2 := { fetched.state with routers := alSet key patched fetched.state.routers }
      ⟨.ok (), s2, { st with router := some router.selfLink },
        fetched.calls ++ [.routerPatch key]⟩
    else
      ⟨.ok (), fetched.state, { st with router := some router.selfLink }, fetched.calls⟩

/-- Service.getDefaultBastionName: cluster-bastion. -/
def getDefaultBastionName (scope : Scope) : String := scope.name ++ "-bastion"

/-- Service.getDefaultBastionZone: region-a. -/
def getDefaultBastionZone (scope : Scope) : String := scope.region ++ "-a"

/-- Service.getDefaultBastionImage. -/
def getDefaultBastionImage : String :=
  "projects/ubuntu-os-cloud/global/images/family/ubuntu-minimal-1804-lts"

/-- Service.getDefaultBastionMachineType. -/
def getDefaultBastionMachineType : String := "f1-micro"

/-- Service.getDefaultBastion: the constructed bastion instance spec. -/
def getDefaultBastion (scope : Scope) : Instance :=
  let zone := getDefaultBastionZone scope
  { name := getDefaultBastionName scope
    zone := zone
    machineType := "zones/" ++ zone ++ "/machineTypes/" ++ getDefaultBastionMachineType
    canIpForward := true
    network := scope.networkSelfLink
    tags := [scope.name ++ "-bastion"]
    sourceImage := getDefaultBastionImage
    selfLink := ""
    status := "RUNNING" }

/-- Service.describeBastionInstance: fetch the bastion by its deterministic
name and zone. -/
def describeBastionInstance (scope : Scope) (s : CloudState) : Option Instance :=
  alGet (getDefaultBastionName scope, getDefaultBastionZone scope) s.instances

/-- Modelled from the spec (Service.runInstance is not part of the given
sources): "if absent, construct and create it" — insert the constructed
instance spec and return the created instance. -/
def runInstance (spec : Instance) (s : CloudState) : Instance × CloudState × List Call :=
  let key := (spec.name, spec.zone)
  (spec, { s with instances := alSet key spec s.instances }, [.instanceInsert key])

/-- Service.ReconcileBastion: a no-op when the network is absent or its
ownership tag does not match; otherwise describe the bastion and create it
when absent, recording its self-link and status. -/
def ReconcileBastion (scope : Scope) (s : CloudState) (st : NetworkStatus) : SvcResult :=
  match alGet scope.networkName s.networks with
  | none => ⟨.ok (), s, st, []⟩
  | some network =>
    if network.description ≠ ClusterTagKey scope.name then ⟨.ok (), s, st, []⟩
    else
      match describeBastionInstance scope s with
      | some inst =>
        ⟨.ok (), s, { st with bastionSelfLink := some inst.selfLink,
                              bastionStatus := some inst.status }, []⟩
      | none =>
        let (inst, s1, calls) := runInstance (getDefaultBastion scope) s
        ⟨.ok (), s1, { st with bastionSelfLink := some inst.selfLink,
                               bastionStatus := some inst.status }, calls⟩

/-- Service.DeleteBastion: a no-op when the network is absent or its
ownership tag does not match; succeed trivially when the instance is
absent; otherwise delete it and wait for completion. -/
def DeleteBastion (scope : Scope) (s : CloudState) (st : NetworkStatus) : SvcResult :=
  match alGet scope.networkName s.networks with
  | none => ⟨.ok (), s, st, []⟩
  | some network =>
    if network.description ≠ ClusterTagKey scope.name then ⟨.ok (), s, st, []⟩
    else
      match describeBastionInstance scope s with
      | none => ⟨.ok (), s, st, []⟩
      | some inst =>
        let key := (inst.name, getDefaultBastionZone scope)
        let (dres, s1) := instanceClientDelete key s
        match dres with
        | .error e => ⟨.error e, s1, st, [.instanceDelete key]⟩
        | .ok _ => ⟨.ok (), s1, st, [.instanceDelete key]⟩

end Compute

/-! Concrete fixtures used by witnesses and counterexamples. -/

/-- A provider state with nothing in it. -/
def emptyState : CloudState :=
  { networks := [], subnetworks := [], routers := [], routes := [], firewalls := []
    instances := [], networkDeleteFaults := [], routerDeleteFaults := []
    subnetDeleteFaults := [], routeDeleteFaults := [] }

/-- A status object with nothing recorded. -/
def emptyStatus : NetworkStatus :=
  { selfLink := none, router := none, firewallRules := [], bastionSelfLink := none
    bastionStatus := none }

/-- A declared subnet spec. -/
def exSubnet : Subnetwork :=
  { name := "sub1", region := "us-east1", ipCidrRange := "10.0.0.0/16"
    enableFlowLogs := false, network := "", selfLink := "sublink" }

/-- A scope for the cluster "my-cluster" with network "my-network". -/
def exScope : Scope :=
  { name := "my-cluster", networkName := "my-network", region := "us-east1"
    isSharedVpc := false
    networkSpec := { name := "my-network", selfLink := "", autoCreateSubnetworks := false
                     description := ClusterTagKey "my-cluster" }
    subnetworkSpec := [exSubnet]
    natRouterSpec := { name := "my-network-router", network := "", description := ""
                       selfLink := "rspeclink", nats := [] }
    networkSelfLink := "netlink", loadBalancerBackendPort := 6443 }

/-- A custom-mode network owned by "my-cluster". -/
def exNetwork : Network :=
  { name := "my-network", selfLink := "netlink", autoCreateSubnetworks := false
    description := ClusterTagKey "my-cluster" }

/-- A router owned by "my-cluster". -/
def exRouter : Router :=
  { name := "my-network-router", network := "netlink"
    description := ClusterTagKey "my-cluster", selfLink := "routerlink", nats := [] }

/-- A node route on the cluster network. -/
def exRoute : Route :=
  { name := "rt1", network := "projects/p/global/networks/my-network"
    description := k8sNodeRouteTag }

/-- A firewall rule on the cluster network carrying the cluster target tag. -/
def exFirewall : Firewall :=
  { name := "fw1", network := "projects/p/global/networks/my-network", allowed := []
    direction := "INGRESS", sourceRanges := [], sourceTags := []
    targetTags := ["my-cluster"], selfLink := "fwlink" }

/-- A firewall rule on an unrelated network, also tagged. -/
def exForeignFirewall : Firewall :=
  { name := "fw2", network := "projects/p/global/networks/other-network", allowed := []
    direction := "INGRESS", sourceRanges := [], sourceTags := []
    targetTags := ["my-cluster"], selfLink := "fwlink2" }

/-- A fully populated owned world: custom-mode network, its subnet, an owned
router, one node route and one tagged firewall rule. -/
def exState : CloudState :=
  { emptyState with
    networks := [("my-network", exNetwork)]
    subnetworks := [(("sub1", "us-east1"), exSubnet)]
    routers := [(("my-network-router", "us-east1"), exRouter)]
    routes := [("rt1", exRoute)]
    firewalls := [("fw1", exFirewall)] }

example : (Networks.Delete exScope exState emptyStatus).calls =
    [ .routerDelete ("my-network-router", "us-east1")
    , .subnetDelete ("sub1", "us-east1")
    , .routeDelete "rt1"
    , .networkDelete "my-network" ] := by decide

example : (Networks.Delete exScope exState emptyStatus).res = .ok () := by decide

example : (Networks.Reconcile exScope { exState with routers := [] } emptyStatus).calls =
    [ .routerInsert ("my-network-router", "us-east1") ] := by decide

example :
    (Compute.sweepFirewalls exScope [exFirewall, exForeignFirewall] exState).calls =
    [ .firewallDelete "fw1" ] := by decide

example : Compute.getFirewallNetworkName exFirewall = .ok "my-network" := by decide

/-! Helper lemmas about the association-list store. -/

theorem alGet_alSet_self {κ α : Type} [DecidableEq κ] (k : κ) (v : α) (l : List (κ × α)) :
    alGet k (alSet k v l) = some v := by
  induction l with
  | nil => simp [alSet, alGet]
  | cons p rest ih =>
    obtain ⟨k', v'⟩ := p
    by_cases h : k = k' <;> simp [alSet, alGet, h, ih]

theorem alGet_alSet_of_ne {κ α : Type} [DecidableEq κ] (k k' : κ) (v : α)
    (l : List (κ × α)) (h : k ≠ k') : alGet k (alSet k' v l) = alGet k l := by
  induction l with
  | nil => simp [alSet, alGet, h]
  | cons p rest ih =>
    obtain ⟨k'', v''⟩ := p
    by_cases h1 : k' = k''
    · subst h1
      simp [alSet, alGet, h]
    · by_cases h2 : k = k'' <;> simp [alSet, alGet, h1, h2, ih]

theorem alSet_of_get {κ α : Type} [DecidableEq κ] (k : κ) (v : α) (l : List (κ × α))
    (h : alGet k l = some v) : alSet k v l = l := by
  induction l with
  | nil => simp [alGet] at h
  | cons p rest ih =>
    obtain ⟨k', v'⟩ := p
    by_cases h1 : k = k'
    · subst h1
      simp [alGet] at h
      simp [alSet, h]
    · simp [alGet, h1] at h
      simp [alSet, h1, ih h]

theorem alGet_isSome_alSet {κ α : Type} [DecidableEq κ] (k k' : κ) (v : α)
    (l : List (κ × α)) (h : (alGet k l).isSome) :
    (alGet k (alSet k' v l)).isSome := by
  by_cases h1 : k = k'
  · subst h1
    simp [alGet_alSet_self]
  · rw [alGet_alSet_of_ne k k' v l h1]
    exact h

/-! Structure-update eta lemmas for the status object. -/

theorem NetworkStatus.set_selfLink_eq (st : NetworkStatus) (x : Option String)
    (h : st.selfLink = x) : ({ st with selfLink := x } : NetworkStatus) = st := by
  cases st
  simp_all

theorem NetworkStatus.set_router_selfLink_eq (st : NetworkStatus) (x y : Option String)
    (hr : st.router = y) (hs : st.selfLink = x) :
    ({ st with router := y, selfLink := x } : NetworkStatus) = st := by
  cases st
  simp_all

/-! Characterizations of the get-or-create steps of the networks service. -/

namespace Networks

theorem createOrGetNetwork_found (scope : Scope) (s : CloudState) (n : Network)
    (h : alGet scope.networkName s.networks = some n) :
    createOrGetNetwork scope s = ⟨.ok n, s, []⟩ := by
  unfold createOrGetNetwork
  rw [h]

theorem createOrGetNetwork_shared_absent (scope : Scope) (s : CloudState)
    (h : alGet scope.networkName s.networks = none) (hs : scope.isSharedVpc = true) :
    createOrGetNetwork scope s = ⟨.error .notFound, s, []⟩ := by
  unfold createOrGetNetwork
  rw [h]
  simp [hs]

theorem createOrGetNetwork_insert (scope : Scope) (s : CloudState)
    (h : alGet scope.networkName s.networks = none) (hs : scope.isSharedVpc = false) :
    createOrGetNetwork scope s =
      ⟨.ok scope.networkSpec,
       { s with networks := alSet scope.networkName scope.networkSpec s.networks },
       [.networkInsert scope.networkName]⟩ := by
  unfold createOrGetNetwork
  rw [h]
  simp [hs, alGet_alSet_self]

theorem createOrGetSubNetwork_found (sub : Subnetwork) (s : CloudState) (sn : Subnetwork)
    (h : alGet (sub.name, sub.region) s.subnetworks = some sn) :
    createOrGetSubNetwork sub s = ⟨.ok sn, s, []⟩ := by
  unfold createOrGetSubNetwork
  simp only [h]

theorem createOrGetSubNetwork_insert (sub : Subnetwork) (s : CloudState)
    (h : alGet (sub.name, sub.region) s.subnetworks = none) :
    createOrGetSubNetwork sub s =
      ⟨.ok sub,
       { s with subnetworks := alSet (sub.name, sub.region) sub s.subnetworks },
       [.subnetInsert (sub.name, sub.region)]⟩ := by
  unfold createOrGetSubNetwork
  simp only [h, alGet_alSet_self]

/-- The router spec as completed by createOrGetRouter before inserting it:
the declared NAT router spec with the network reference and the ownership
description filled in. -/
def adoptedRouterSpec (scope : Scope) (network : Network) : Router :=
  { scope.natRouterSpec with
    network := network.selfLink,
    description := ClusterTagKey scope.name }

theorem createOrGetRouter_found (scope : Scope) (network : Network) (s : CloudState)
    (r : Router) (h : alGet (scope.natRouterSpec.name, scope.region) s.routers = some r) :
    createOrGetRouter scope network s = ⟨.ok r, s, []⟩ := by
  unfold createOrGetRouter
  simp only [h]

theorem createOrGetRouter_shared_absent (scope : Scope) (network : Network)
    (s : CloudState) (h : alGet (scope.natRouterSpec.name, scope.region) s.routers = none)
    (hs : scope.isSharedVpc = true) :
    createOrGetRouter scope network s = ⟨.error .notFound, s, []⟩ := by
  unfold createOrGetRouter
  simp only [h, hs]
  rfl

theorem createOrGetRouter_insert (scope : Scope) (network : Network) (s : CloudState)
    (h : alGet (scope.natRouterSpec.name, scope.region) s.routers = none)
    (hs : scope.isSharedVpc = false) :
    createOrGetRouter scope network s =
      ⟨.ok (adoptedRouterSpec scope network),
       { s with routers := (alSet (scope.natRouterSpec.name, scope.region)
           (adoptedRouterSpec scope network) s.routers) },
       [.routerInsert (scope.natRouterSpec.name, scope.region)]⟩ := by
  unfold createOrGetRouter
  simp only [h, hs, alGet_alSet_self, Bool.false_eq_true, if_false, adoptedRouterSpec]

/-- The subnet get-or-create loop never fails: the re-fetch after an insert
always finds the just-inserted subnet. -/
theorem reconcileSubnetsLoop_res (subs : List Subnetwork) (s : CloudState) :
    (reconcileSubnetsLoop subs s).res = .ok () := by
  induction subs generalizing s with
  | nil => rfl
  | cons sub rest ih =>
    unfold reconcileSubnetsLoop
    cases h : alGet (sub.name, sub.region) s.subnetworks with
    | some sn => rw [createOrGetSubNetwork_found sub s sn h]; exact ih _
    | none => rw [createOrGetSubNetwork_insert sub s h]; exact ih _

/-- The subnet get-or-create loop touches only the subnetworks collection. -/
theorem reconcileSubnetsLoop_state (subs : List Subnetwork) (s : CloudState) :
    ∃ sl, (reconcileSubnetsLoop subs s).state = { s with subnetworks := sl } := by
  induction subs generalizing s with
  | nil => exact ⟨s.subnetworks, rfl⟩
  | cons sub rest ih =>
    unfold reconcileSubnetsLoop
    cases h : alGet (sub.name, sub.region) s.subnetworks with
    | some sn =>
      rw [createOrGetSubNetwork_found sub s sn h]
      exact ih s
    | none =>
      rw [createOrGetSubNetwork_insert sub s h]
      obtain ⟨sl, hsl⟩ := ih { s with subnetworks := alSet (sub.name, sub.region) sub s.subnetworks }
      exact ⟨sl, hsl⟩

/-- Every call issued by the subnet get-or-create loop is a subnet insert. -/
theorem reconcileSubnetsLoop_calls (subs : List Subnetwork) (s : CloudState) :
    ∀ c ∈ (reconcileSubnetsLoop subs s).calls, ∃ k, c = .subnetInsert k := by
  induction subs generalizing s with
  | nil => intro c hc; simp [reconcileSubnetsLoop] at hc
  | cons sub rest ih =>
    intro c hc
    unfold reconcileSubnetsLoop at hc
    cases h : alGet (sub.name, sub.region) s.subnetworks with
    | some sn =>
      rw [createOrGetSubNetwork_found sub s sn h] at hc
      simp at hc
      exact ih s c hc
    | none =>
      rw [createOrGetSubNetwork_insert sub s h] at hc
      simp at hc
      rcases hc with hc | hc
      · exact ⟨(sub.name, sub.region), hc⟩
      · exact ih _ c hc

/-- Subnet presence is preserved by the subnet get-or-create loop. -/
theorem reconcileSubnetsLoop_mono (subs : List Subnetwork) (s : CloudState)
    (k : String × String) (h : (alGet k s.subnetworks).isSome) :
    (alGet k (reconcileSubnetsLoop subs s).state.subnetworks).isSome := by
  induction subs generalizing s with
  | nil => exact h
  | cons sub rest ih =>
    unfold reconcileSubnetsLoop
    cases h1 : alGet (sub.name, sub.region) s.subnetworks with
    | some sn =>
      rw [createOrGetSubNetwork_found sub s sn h1]
      exact ih s h
    | none =>
      rw [createOrGetSubNetwork_insert sub s h1]
      exact ih _ (alGet_isSome_alSet _ _ _ _ h)

/-- After the subnet get-or-create loop, every processed subnet is present. -/
theorem reconcileSubnetsLoop_post (subs : List Subnetwork) (s : CloudState) :
    ∀ sub ∈ subs,
      (alGet (sub.name, sub.region) (reconcileSubnetsLoop subs s).state.subnetworks).isSome := by
  induction subs generalizing s with
  | nil => intro sub hsub; simp at hsub
  | cons sub0 rest ih =>
    intro sub hsub
    unfold reconcileSubnetsLoop
    cases h1 : alGet (sub0.name, sub0.region) s.subnetworks with
    | some sn =>
      rw [createOrGetSubNetwork_found sub0 s sn h1]
      rcases List.mem_cons.mp hsub with h | h
      · subst h
        exact reconcileSubnetsLoop_mono rest s _ (by simp [h1])
      · exact ih s sub h
    | none =>
      rw [createOrGetSubNetwork_insert sub0 s h1]
      rcases List.mem_cons.mp hsub with h | h
      · subst h
        exact reconcileSubnetsLoop_mono rest _ _ (by simp [alGet_alSet_self])
      · exact ih _ sub h

/-- When every declared subnet is already present, the subnet loop is a
complete no-op. -/
theorem reconcileSubnetsLoop_all_present (subs : List Subnetwork) (s : CloudState)
    (h : ∀ sub ∈ subs, (alGet (sub.name, sub.region) s.subnetworks).isSome) :
    reconcileSubnetsLoop subs s = ⟨.ok (), s, []⟩ := by
  induction subs with
  | nil => rfl
  | cons sub rest ih =>
    unfold reconcileSubnetsLoop
    have hsome := h sub (List.mem_cons_self sub rest)
    obtain ⟨sn, hsn⟩ := Option.isSome_iff_exists.mp hsome
    rw [createOrGetSubNetwork_found sub s sn hsn]
    simp [ih (fun sub2 h2 => h sub2 (List.mem_cons_of_mem sub h2))]

/-! Lemmas about the teardown steps of the networks service. -/

theorem routerClientDelete_state (k : String × String) (s : CloudState) :
    ∃ rl, (routerClientDelete k s).2 = { s with routers := rl } := by
  unfold routerClientDelete
  split
  · exact ⟨s.routers, rfl⟩
  · split
    · exact ⟨s.routers, rfl⟩
    · exact ⟨alRemove k s.routers, rfl⟩

theorem subnetClientDelete_state (k : String × String) (s : CloudState) :
    ∃ sl, (subnetClientDelete k s).2 = { s with subnetworks := sl } := by
  unfold subnetClientDelete
  split
  · exact ⟨s.subnetworks, rfl⟩
  · split
    · exact ⟨s.subnetworks, rfl⟩
    · exact ⟨alRemove k s.subnetworks, rfl⟩

theorem routeClientDelete_state (k : String) (s : CloudState) :
    ∃ rl, (routeClientDelete k s).2 = { s with routes := rl } := by
  unfold routeClientDelete
  split
  · exact ⟨s.routes, rfl⟩
  · split
    · exact ⟨s.routes, rfl⟩
    · exact ⟨alRemove k s.routes, rfl⟩

/-- The router delete step only touches the router collection. -/
theorem deleteRouterStep_state (scope : Scope) (s : CloudState) :
    ∃ rl, (deleteRouterStep scope s).state = { s with routers := rl } := by
  obtain ⟨rl0, hrl0⟩ := routerClientDelete_state (natRouterKey scope) s
  unfold deleteRouterStep
  split
  · exact ⟨s.routers, rfl⟩
  · split
    · split
      · split
        · exact ⟨rl0, hrl0⟩
        · exact ⟨rl0, hrl0⟩
      · exact ⟨rl0, hrl0⟩
    · exact ⟨s.routers, rfl⟩

/-- Every call of the router delete step is the router delete, and it is
issued only when the fetched router's own ownership tag matches. -/
theorem deleteRouterStep_calls (scope : Scope) (s : CloudState) :
    (deleteRouterStep scope s).calls = [] ∨
    ((deleteRouterStep scope s).calls = [.routerDelete (natRouterKey scope)] ∧
     ∃ r, alGet (natRouterKey scope) s.routers = some r ∧
          r.description = ClusterTagKey scope.name) := by
  unfold deleteRouterStep
  split
  · exact Or.inl rfl
  · rename_i r hr
    split
    · rename_i hdesc
      split
      · split
        · exact Or.inr ⟨rfl, r, hr, hdesc⟩
        · exact Or.inr ⟨rfl, r, hr, hdesc⟩
      · exact Or.inr ⟨rfl, r, hr, hdesc⟩
    · exact Or.inl rfl

/-- Every call of the subnet delete loop is a subnet delete. -/
theorem deleteSubnetsLoop_calls (subs : List Subnetwork) (s : CloudState) :
    ∀ c ∈ (deleteSubnetsLoop subs s).calls, ∃ k, c = .subnetDelete k := by
  induction subs generalizing s with
  | nil => intro c hc; simp [deleteSubnetsLoop] at hc
  | cons sub rest ih =>
    intro c hc
    unfold deleteSubnetsLoop at hc
    revert hc
    split
    · exact fun hc => ih s c hc
    · split
      · intro hc
        simp at hc
        exact ⟨(sub.name, sub.region), hc⟩
      · intro hc
        simp at hc
        rcases hc with hc | hc
        · exact ⟨(sub.name, sub.region), hc⟩
        · exact ih _ c hc

/-- The subnet delete loop only touches the subnetwork collection. -/
theorem deleteSubnetsLoop_state (subs : List Subnetwork) (s : CloudState) :
    ∃ sl, (deleteSubnetsLoop subs s).state = { s with subnetworks := sl } := by
  induction subs generalizing s with
  | nil => exact ⟨s.subnetworks, rfl⟩
  | cons sub rest ih =>
    obtain ⟨sl0, hsl0⟩ := subnetClientDelete_state (sub.name, sub.region) s
    unfold deleteSubnetsLoop
    split
    · exact ih s
    · split
      · exact ⟨sl0, hsl0⟩
      · obtain ⟨sl, hsl⟩ := ih ((subnetClientDelete (sub.name, sub.region) s).2)
        exact ⟨sl, by rw [hsl, hsl0]⟩

/-- Every call of the route delete loop is a route delete of a route from
its input list whose network reference ends with the network name. -/
theorem deleteRoutesLoop_calls (networkName : String) (routes : List Route)
    (s : CloudState) :
    ∀ c ∈ (deleteRoutesLoop networkName routes s).calls,
      ∃ nm, c = .routeDelete nm ∧
        ∃ rt, rt ∈ routes ∧ rt.name = nm ∧
              strEndsWith rt.network networkName = true := by
  induction routes generalizing s with
  | nil => intro c hc; simp [deleteRoutesLoop] at hc
  | cons route rest ih =>
    intro c hc
    unfold deleteRoutesLoop at hc
    revert hc
    split
    · rename_i hsuf
      split
      · intro hc
        simp at hc
        exact ⟨route.name, hc, route, List.mem_cons_self route rest, rfl, hsuf⟩
      · intro hc
        simp at hc
        rcases hc with hc | hc
        · exact ⟨route.name, hc, route, List.mem_cons_self route rest, rfl, hsuf⟩
        · obtain ⟨nm, hnm, rt, hrt, hname, hsuf2⟩ := ih _ c hc
          exact ⟨nm, hnm, rt, List.mem_cons_of_mem route hrt, hname, hsuf2⟩
    · intro hc
      obtain ⟨nm, hnm, rt, hrt, hname, hsuf2⟩ := ih s c hc
      exact ⟨nm, hnm, rt, List.mem_cons_of_mem route hrt, hname, hsuf2⟩

/-- The route delete loop only touches the route collection. -/
theorem deleteRoutesLoop_state (networkName : String) (routes : List Route)
    (s : CloudState) :
    ∃ rl, (deleteRoutesLoop networkName routes s).state = { s with routes := rl } := by
  induction routes generalizing s with
  | nil => exact ⟨s.routes, rfl⟩
  | cons route rest ih =>
    obtain ⟨rl0, hrl0⟩ := routeClientDelete_state route.name s
    unfold deleteRoutesLoop
    split
    · split
      · exact ⟨rl0, hrl0⟩
      · obtain ⟨rl, hrl⟩ := ih ((routeClientDelete route.name s).2)
        exact ⟨rl, by rw [hrl, hrl0]⟩
    · exact ih s

/-! Branch characterizations of the sequencing combinator and of Delete. -/

theorem opBind_error {α : Type} (a : OpResult α) (st : NetworkStatus)
    (k : α → CloudState → SvcResult) (e : GCPError) (h : a.res = .error e) :
    opBind a st k = ⟨.error e, a.state, st, a.calls⟩ := by
  unfold opBind
  rw [h]

theorem opBind_ok {α : Type} (a : OpResult α) (st : NetworkStatus)
    (k : α → CloudState → SvcResult) (v : α) (h : a.res = .ok v) :
    opBind a st k =
      ⟨(k v a.state).res, (k v a.state).state, (k v a.state).status,
       a.calls ++ (k v a.state).calls⟩ := by
  unfold opBind
  rw [h]

theorem Delete_shared (scope : Scope) (s : CloudState) (st : NetworkStatus)
    (hs : scope.isSharedVpc = true) :
    Delete scope s st = ⟨.ok (), s, { st with router := none, selfLink := none }, []⟩ := by
  unfold Delete
  simp [hs]

theorem Delete_absent (scope : Scope) (s : CloudState) (st : NetworkStatus)
    (hs : scope.isSharedVpc = false) (h : alGet scope.networkName s.networks = none) :
    Delete scope s st = ⟨.ok (), s, st, []⟩ := by
  unfold Delete
  simp [hs, h]

theorem Delete_foreign (scope : Scope) (s : CloudState) (st : NetworkStatus)
    (n : Network) (hs : scope.isSharedVpc = false)
    (h : alGet scope.networkName s.networks = some n)
    (hd : n.description ≠ ClusterTagKey scope.name) :
    Delete scope s st = ⟨.ok (), s, st, []⟩ := by
  unfold Delete
  simp [hs, h, hd]

theorem Delete_owned (scope : Scope) (s : CloudState) (st : NetworkStatus)
    (n : Network) (hs : scope.isSharedVpc = false)
    (h : alGet scope.networkName s.networks = some n)
    (hd : n.description = ClusterTagKey scope.name) :
    Delete scope s st =
      opBind (deleteRouterStep scope s) st (fun _ s1 =>
        opBind (subnetsDeleteStage scope n s1) st (fun _ s2 =>
          opBind (routesDeleteStage scope s2) st (fun _ s3 =>
            opBind (networkDeleteStage scope s3) st (fun _ s4 =>
              ⟨.ok (), s4, { st with router := none, selfLink := none }, []⟩)))) := by
  unfold Delete
  simp [hs, h, hd]

/-! Stage-level facts used by the Delete claims. -/

theorem subnetsDeleteStage_auto (scope : Scope) (n : Network) (s : CloudState)
    (h : n.autoCreateSubnetworks = true) :
    subnetsDeleteStage scope n s = ⟨.ok (), s, []⟩ := by
  unfold subnetsDeleteStage
  simp [h]

theorem subnetsDeleteStage_state (scope : Scope) (n : Network) (s : CloudState) :
    ∃ sl, (subnetsDeleteStage scope n s).state = { s with subnetworks := sl } := by
  unfold subnetsDeleteStage
  split
  · exact ⟨s.subnetworks, rfl⟩
  · exact deleteSubnetsLoop_state scope.subnetworkSpec s

theorem subnetsDeleteStage_calls (scope : Scope) (n : Network) (s : CloudState) :
    ∀ c ∈ (subnetsDeleteStage scope n s).calls, ∃ k, c = .subnetDelete k := by
  unfold subnetsDeleteStage
  split
  · intro c hc; simp at hc
  · exact deleteSubnetsLoop_calls scope.subnetworkSpec s

theorem routesDeleteStage_state (scope : Scope) (s : CloudState) :
    ∃ rl, (routesDeleteStage scope s).state = { s with routes := rl } := by
  unfold routesDeleteStage
  exact deleteRoutesLoop_state scope.networkName _ s

theorem routesDeleteStage_calls (scope : Scope) (s : CloudState) :
    ∀ c ∈ (routesDeleteStage scope s).calls,
      ∃ nm, c = .routeDelete nm ∧
        ∃ rt, rt ∈ listRoutesByDescription k8sNodeRouteTag s ∧ rt.name = nm ∧
              strEndsWith rt.network scope.networkName = true := by
  unfold routesDeleteStage
  exact deleteRoutesLoop_calls scope.networkName _ s

theorem networkDeleteStage_calls (scope : Scope) (s : CloudState) :
    (networkDeleteStage scope s).calls = [.networkDelete scope.networkName] := by
  unfold networkDeleteStage
  split <;> rfl

theorem networkDeleteStage_fault (scope : Scope) (s : CloudState) (e : GCPError)
    (h : alGet scope.networkName s.networkDeleteFaults = some e) :
    networkDeleteStage scope s = ⟨.error e, s, [.networkDelete scope.networkName]⟩ := by
  unfold networkDeleteStage netDelete
  simp [h]

/-- The route listing depends only on the route collection. -/
theorem listRoutesByDescription_congr (tag : String) (s s2 : CloudState)
    (h : s2.routes = s.routes) :
    listRoutesByDescription tag s2 = listRoutesByDescription tag s := by
  unfold listRoutesByDescription
  rw [h]

/-- The routes seen by the route phase are the routes of the starting
state: the router and subnet phases do not touch the route collection. -/
theorem Delete_routes_congr (scope : Scope) (n : Network) (s : CloudState) :
    listRoutesByDescription k8sNodeRouteTag
        ((subnetsDeleteStage scope n (deleteRouterStep scope s).state).state) =
      listRoutesByDescription k8sNodeRouteTag s := by
  obtain ⟨rl, h1⟩ := deleteRouterStep_state scope s
  obtain ⟨sl, h2⟩ := subnetsDeleteStage_state scope n (deleteRouterStep scope s).state
  apply listRoutesByDescription_congr
  rw [h2, h1]

/-- Master decomposition of a Delete trace: either no call was issued, or
the network was fetched and owned by the cluster, and the trace consists of
the router step's calls, then subnet deletes, then route deletes of
discovered matching routes, then (at most) the network delete; on success
the network delete is the final call. -/
theorem Delete_calls_shape (scope : Scope) (s : CloudState) (st : NetworkStatus) :
    (Delete scope s st).calls = [] ∨
    (scope.isSharedVpc = false ∧
     ∃ n, alGet scope.networkName s.networks = some n ∧
          n.description = ClusterTagKey scope.name ∧
     ∃ t2 t3 t4,
       (Delete scope s st).calls =
         (deleteRouterStep scope s).calls ++ (t2 ++ (t3 ++ t4)) ∧
       (∀ c ∈ t2, ∃ k, c = Call.subnetDelete k) ∧
       (t2 = [] ∨
        t2 = (subnetsDeleteStage scope n (deleteRouterStep scope s).state).calls) ∧
       (∀ c ∈ t3, ∃ nm, c = Call.routeDelete nm ∧
          ∃ rt, rt ∈ listRoutesByDescription k8sNodeRouteTag s ∧ rt.name = nm ∧
                strEndsWith rt.network scope.networkName = true) ∧
       (∀ c ∈ t4, c = Call.networkDelete scope.networkName) ∧
       ((Delete scope s st).res = .ok () →
          t4 = [Call.networkDelete scope.networkName])) := by
  cases hs : scope.isSharedVpc with
  | true =>
    left
    rw [Delete_shared scope s st hs]
  | false =>
    cases h : alGet scope.networkName s.networks with
    | none =>
      left
      rw [Delete_absent scope s st hs h]
    | some n =>
      by_cases hd : n.description = ClusterTagKey scope.name
      · right
        refine ⟨rfl, n, rfl, hd, ?_⟩
        rw [Delete_owned scope s st n hs h hd]
        have hsub := subnetsDeleteStage_calls scope n (deleteRouterStep scope s).state
        have hroutes := routesDeleteStage_calls scope
          ((subnetsDeleteStage scope n (deleteRouterStep scope s).state).state)
        rw [Delete_routes_congr scope n s] at hroutes
        cases h1 : (deleteRouterStep scope s).res with
        | error e =>
          refine ⟨[], [], [], ?_, by simp, Or.inl rfl, by simp, by simp, ?_⟩
          · simp [opBind, h1]
          · simp [opBind, h1]
        | ok v1 =>
          cases h2 : (subnetsDeleteStage scope n (deleteRouterStep scope s).state).res with
          | error e =>
            refine ⟨(subnetsDeleteStage scope n (deleteRouterStep scope s).state).calls,
                    [], [], ?_, hsub, Or.inr rfl, by simp, by simp, ?_⟩
            · simp [opBind, h1, h2]
            · simp [opBind, h1, h2]
          | ok v2 =>
            cases h3 : (routesDeleteStage scope
                ((subnetsDeleteStage scope n (deleteRouterStep scope s).state).state)).res with
            | error e =>
              refine ⟨(subnetsDeleteStage scope n (deleteRouterStep scope s).state).calls,
                      (routesDeleteStage scope
                        ((subnetsDeleteStage scope n (deleteRouterStep scope s).state).state)).calls,
                      [], ?_, hsub, Or.inr rfl, hroutes, by simp, ?_⟩
              · simp [opBind, h1, h2, h3]
              · simp [opBind, h1, h2, h3]
            | ok v3 =>
              refine ⟨(subnetsDeleteStage scope n (deleteRouterStep scope s).state).calls,
                      (routesDeleteStage scope
                        ((subnetsDeleteStage scope n (deleteRouterStep scope s).state).state)).calls,
                      (networkDeleteStage scope
                        ((routesDeleteStage scope
                          ((subnetsDeleteStage scope n (deleteRouterStep scope s).state).state)).state)).calls,
                      ?_, hsub, Or.inr rfl, hroutes, ?_, ?_⟩
              · simp [opBind, h1, h2, h3]
                cases h4 : (networkDeleteStage scope
                    ((routesDeleteStage scope
                      ((subnetsDeleteStage scope n (deleteRouterStep scope s).state).state)).state)).res with
                | error e => simp [h4]
                | ok v4 => simp [h4]
              · rw [networkDeleteStage_calls]
                intro c hc
                simpa using hc
              · intro _
                rw [networkDeleteStage_calls]
      · left
        rw [Delete_foreign scope s st n hs h hd]

/-- The rank of a call in the teardown order of the code: router deletes,
then subnet deletes, then route deletes, then the network delete. -/
def deleteRank : Call → Nat
  | .routerDelete _ => 0
  | .subnetDelete _ => 1
  | .routeDelete _ => 2
  | .networkDelete _ => 3
  | _ => 0

theorem pairwise_rank_const (f : Call → Nat) (l : List Call) (r : Nat)
    (h : ∀ c ∈ l, f c = r) : l.Pairwise (fun a b => f a ≤ f b) := by
  induction l with
  | nil => exact List.Pairwise.nil
  | cons x xs ih =>
    constructor
    · intro b hb
      rw [h x (List.mem_cons_self x xs), h b (List.mem_cons_of_mem x hb)]
    · exact ih (fun c hc => h c (List.mem_cons_of_mem x hc))

theorem pairwise_rank_append (f : Call → Nat) (b : Nat) (l1 l2 : List Call)
    (p1 : l1.Pairwise (fun a c => f a ≤ f c))
    (p2 : l2.Pairwise (fun a c => f a ≤ f c))
    (h1 : ∀ c ∈ l1, f c ≤ b) (h2 : ∀ c ∈ l2, b ≤ f c) :
    (l1 ++ l2).Pairwise (fun a c => f a ≤ f c) :=
  List.pairwise_append.mpr ⟨p1, p2, fun a ha c hc => le_trans (h1 a ha) (h2 c hc)⟩

/-- Every Delete trace respects the teardown order of the code: no call of a
later phase ever precedes a call of an earlier phase. -/
theorem Delete_calls_sorted (scope : Scope) (s : CloudState) (st : NetworkStatus) :
    ((Delete scope s st).calls).Pairwise (fun a b => deleteRank a ≤ deleteRank b) := by
  rcases Delete_calls_shape scope s st with hempty |
    ⟨hs, n, hn, hd, t2, t3, t4, hcalls, h2, ht2src, h3, h4, hsucc⟩
  · rw [hempty]
    exact List.Pairwise.nil
  · rw [hcalls]
    have m1 : ∀ c ∈ (deleteRouterStep scope s).calls, deleteRank c = 0 := by
      rcases deleteRouterStep_calls scope s with hr | ⟨hr, _⟩ <;> rw [hr]
      · intro c hc
        simp at hc
      · intro c hc
        simp at hc
        rw [hc]
        rfl
    have m2 : ∀ c ∈ t2, deleteRank c = 1 := by
      intro c hc
      obtain ⟨k, hk⟩ := h2 c hc
      rw [hk]
      rfl
    have m3 : ∀ c ∈ t3, deleteRank c = 2 := by
      intro c hc
      obtain ⟨nm, hnm, _⟩ := h3 c hc
      rw [hnm]
      rfl
    have m4 : ∀ c ∈ t4, deleteRank c = 3 := by
      intro c hc
      rw [h4 c hc]
      rfl
    apply pairwise_rank_append deleteRank 1
    · exact pairwise_rank_const deleteRank _ 0 m1
    · apply pairwise_rank_append deleteRank 2
      · exact pairwise_rank_const deleteRank _ 1 m2
      · apply pairwise_rank_append deleteRank 3
        · exact pairwise_rank_const deleteRank _ 2 m3
        · exact pairwise_rank_const deleteRank _ 3 m4
        · intro c hc
          rw [m3 c hc]
          omega
        · intro c hc
          rw [m4 c hc]
      · intro c hc
        rw [m2 c hc]
        omega
      · intro c hc
        rcases List.mem_append.mp hc with hc | hc
        · rw [m3 c hc]
        · rw [m4 c hc]
          omega
    · intro c hc
      rw [m1 c hc]
      omega
    · intro c hc
      rcases List.mem_append.mp hc with hc | hc
      · rw [m2 c hc]
      · rcases List.mem_append.mp hc with hc | hc
        · rw [m3 c hc]
          omega
        · rw [m4 c hc]
          omega

/-- On a successful owned-network Delete, the network delete is issued and
is the final call of the trace. -/
theorem Delete_success_last (scope : Scope) (s : CloudState) (st : NetworkStatus)
    (n : Network) (hs : scope.isSharedVpc = false)
    (hn : alGet scope.networkName s.networks = some n)
    (hd : n.description = ClusterTagKey scope.name)
    (hres : (Delete scope s st).res = .ok ()) :
    (Delete scope s st).calls.getLast? = some (.networkDelete scope.networkName) := by
  rw [Delete_owned scope s st n hs hn hd] at hres ⊢
  cases h1 : (deleteRouterStep scope s).res with
  | error e => simp [opBind, h1] at hres
  | ok v1 =>
    cases h2 : (subnetsDeleteStage scope n (deleteRouterStep scope s).state).res with
    | error e => simp [opBind, h1, h2] at hres
    | ok v2 =>
      cases h3 : (routesDeleteStage scope
          ((subnetsDeleteStage scope n (deleteRouterStep scope s).state).state)).res with
      | error e => simp [opBind, h1, h2, h3] at hres
      | ok v3 =>
        cases h4 : (networkDeleteStage scope
            ((routesDeleteStage scope
              ((subnetsDeleteStage scope n (deleteRouterStep scope s).state).state)).state)).res with
        | error e => simp [opBind, h1, h2, h3, h4] at hres
        | ok v4 =>
          simp only [opBind, h1, h2, h3, h4, networkDeleteStage_calls]
          rw [List.append_nil, ← List.append_assoc, ← List.append_assoc,
            List.getLast?_concat]

/-- The status object after Delete: either untouched, or cleared — the
latter only on the shared-VPC skip path or when the network delete call was
issued and the whole call succeeded. -/
theorem Delete_status_shape (scope : Scope) (s : CloudState) (st : NetworkStatus) :
    (Delete scope s st).status = st ∨
    ((Delete scope s st).status = { st with router := none, selfLink := none } ∧
     (scope.isSharedVpc = true ∨
      ((Delete scope s st).res = .ok () ∧
       Call.networkDelete scope.networkName ∈ (Delete scope s st).calls))) := by
  cases hs : scope.isSharedVpc with
  | true =>
    right
    rw [Delete_shared scope s st hs]
    exact ⟨rfl, Or.inl rfl⟩
  | false =>
    cases h : alGet scope.networkName s.networks with
    | none =>
      left
      rw [Delete_absent scope s st hs h]
    | some n =>
      by_cases hd : n.description = ClusterTagKey scope.name
      · rw [Delete_owned scope s st n hs h hd]
        cases h1 : (deleteRouterStep scope s).res with
        | error e => left; simp [opBind, h1]
        | ok v1 =>
          cases h2 : (subnetsDeleteStage scope n (deleteRouterStep scope s).state).res with
          | error e => left; simp [opBind, h1, h2]
          | ok v2 =>
            cases h3 : (routesDeleteStage scope
                ((subnetsDeleteStage scope n (deleteRouterStep scope s).state).state)).res with
            | error e => left; simp [opBind, h1, h2, h3]
            | ok v3 =>
              cases h4 : (networkDeleteStage scope
                  ((routesDeleteStage scope
                    ((subnetsDeleteStage scope n (deleteRouterStep scope s).state).state)).state)).res with
              | error e => left; simp [opBind, h1, h2, h3, h4]
              | ok v4 =>
                right
                refine ⟨by simp [opBind, h1, h2, h3, h4], Or.inr ⟨by simp [opBind, h1, h2, h3, h4], ?_⟩⟩
                simp [opBind, h1, h2, h3, h4, networkDeleteStage_calls]
      · left
        rw [Delete_foreign scope s st n hs h hd]

end Networks

/-! Machinery for the firewall reconcile loop: the loop's effect on the
status mapping is a sequence of writes determined by the spec list and the
provider state. -/

namespace Compute

/-- The sequence of (name, self-link) writes the reconcile loop performs on
the status mapping. -/
def loopWrites (specs : List Firewall) (s : CloudState) : List (String × String) :=
  match specs with
  | [] => []
  | spec :: rest =>
    match alGet spec.name s.firewalls with
    | some fw => (fw.name, fw.selfLink) :: loopWrites rest s
    | none =>
      (spec.name, spec.selfLink) ::
        loopWrites rest { s with firewalls := alSet spec.name spec s.firewalls }

/-- Apply a sequence of mapping writes in order. -/
def applyWrites (ws : List (String × String)) (m : List (String × String)) :
    List (String × String) :=
  match ws with
  | [] => m
  | (k, v) :: rest => applyWrites rest (alSet k v m)

/-- The last value written to key `k` by a write sequence, if any. -/
def lastWrite (ws : List (String × String)) (k : String) : Option String :=
  match ws with
  | [] => none
  | (k2, v2) :: rest =>
    match lastWrite rest k with
    | some v => some v
    | none => if k = k2 then some v2 else none

theorem alGet_applyWrites (ws : List (String × String)) (m : List (String × String))
    (k : String) :
    alGet k (applyWrites ws m) =
      match lastWrite ws k with
      | some v => some v
      | none => alGet k m := by
  induction ws generalizing m with
  | nil => rfl
  | cons p rest ih =>
    obtain ⟨k2, v2⟩ := p
    rw [applyWrites, lastWrite, ih (alSet k2 v2 m)]
    cases lastWrite rest k with
    | some v => rfl
    | none =>
      by_cases hk : k = k2
      · subst hk
        simp [alGet_alSet_self]
      · simp [alGet_alSet_of_ne k k2 v2 m hk, hk]

/-- The reconcile loop always succeeds. -/
theorem reconcileFirewallsLoop_res (specs : List Firewall) (s : CloudState)
    (st : NetworkStatus) : (reconcileFirewallsLoop specs s st).res = .ok () := by
  induction specs generalizing s st with
  | nil => rfl
  | cons spec rest ih =>
    unfold reconcileFirewallsLoop
    cases h : alGet spec.name s.firewalls with
    | some fw =>
      simp only [h]
      exact ih s _
    | none =>
      simp only [h, alGet_alSet_self]
      exact ih _ _

/-- The status after the reconcile loop: the loop's writes applied to the
firewall-rules mapping; the other status fields are untouched. -/
theorem reconcileFirewallsLoop_status (specs : List Firewall) (s : CloudState)
    (st : NetworkStatus) :
    (reconcileFirewallsLoop specs s st).status =
      { st with firewallRules := applyWrites (loopWrites specs s) st.firewallRules } := by
  induction specs generalizing s st with
  | nil => rfl
  | cons spec rest ih =>
    unfold reconcileFirewallsLoop loopWrites
    cases h : alGet spec.name s.firewalls with
    | some fw =>
      simp only [h]
      exact ih s _
    | none =>
      simp only [h, alGet_alSet_self]
      exact ih _ _

/-- The state and trace of the reconcile loop do not depend on the status
it starts from. -/
theorem reconcileFirewallsLoop_st_congr (specs : List Firewall) (s : CloudState)
    (st st2 : NetworkStatus) :
    (reconcileFirewallsLoop specs s st).state = (reconcileFirewallsLoop specs s st2).state ∧
    (reconcileFirewallsLoop specs s st).calls = (reconcileFirewallsLoop specs s st2).calls := by
  induction specs generalizing s st st2 with
  | nil => exact ⟨rfl, rfl⟩
  | cons spec rest ih =>
    unfold reconcileFirewallsLoop
    cases h : alGet spec.name s.firewalls with
    | some fw =>
      simp only [h]
      exact ih s _ _
    | none =>
      simp only [h, alGet_alSet_self]
      obtain ⟨h1, h2⟩ := ih { s with firewalls := alSet spec.name spec s.firewalls }
        { st with firewallRules := alSet spec.name spec.selfLink st.firewallRules }
        { st2 with firewallRules := alSet spec.name spec.selfLink st2.firewallRules }
      exact ⟨h1, by rw [h2]⟩

/-- A stored firewall binding survives the reconcile loop unchanged. -/
theorem reconcileFirewallsLoop_preserve (specs : List Firewall) (s : CloudState)
    (st : NetworkStatus) (k : String) (v : Firewall)
    (h : alGet k s.firewalls = some v) :
    alGet k (reconcileFirewallsLoop specs s st).state.firewalls = some v := by
  induction specs generalizing s st with
  | nil => exact h
  | cons spec rest ih =>
    unfold reconcileFirewallsLoop
    cases h1 : alGet spec.name s.firewalls with
    | some fw =>
      simp only [h1]
      exact ih s _ h
    | none =>
      have hk : k ≠ spec.name := by
        intro heq
        rw [heq, h1] at h
        exact Option.noConfusion h
      simp only [h1, alGet_alSet_self]
      exact ih _ _ (by simpa [alGet_alSet_of_ne k spec.name spec s.firewalls hk] using h)

/-- Every processed spec is present after the reconcile loop. -/
theorem reconcileFirewallsLoop_post (specs : List Firewall) (s : CloudState)
    (st : NetworkStatus) :
    ∀ spec ∈ specs,
      (alGet spec.name (reconcileFirewallsLoop specs s st).state.firewalls).isSome := by
  induction specs generalizing s st with
  | nil => intro spec hm; simp at hm
  | cons spec0 rest ih =>
    intro spec hm
    unfold reconcileFirewallsLoop
    cases h1 : alGet spec0.name s.firewalls with
    | some fw =>
      simp only [h1]
      rcases List.mem_cons.mp hm with hm | hm
      · subst hm
        rw [reconcileFirewallsLoop_preserve rest s _ spec.name fw h1]
        rfl
      · exact ih s _ spec hm
    | none =>
      simp only [h1, alGet_alSet_self]
      rcases List.mem_cons.mp hm with hm | hm
      · subst hm
        rw [reconcileFirewallsLoop_preserve rest _ _ spec.name spec (alGet_alSet_self _ _ _)]
        rfl
      · exact ih _ _ spec hm

/-- When every declared rule is already present, the reconcile loop issues
no call. -/
theorem reconcileFirewallsLoop_all_present (specs : List Firewall) (s : CloudState)
    (st : NetworkStatus)
    (h : ∀ spec ∈ specs, (alGet spec.name s.firewalls).isSome) :
    (reconcileFirewallsLoop specs s st).calls = [] := by
  induction specs generalizing s st with
  | nil => rfl
  | cons spec rest ih =>
    unfold reconcileFirewallsLoop
    obtain ⟨fw, hfw⟩ := Option.isSome_iff_exists.mp (h spec (List.mem_cons_self spec rest))
    simp only [hfw]
    exact ih s _ (fun sp hsp => h sp (List.mem_cons_of_mem spec hsp))

/-- The write sequence is stable under re-running the loop: the second run
observes the same bindings and so performs the same writes. -/
theorem loopWrites_stable (specs : List Firewall) (s : CloudState) (st : NetworkStatus) :
    loopWrites specs (reconcileFirewallsLoop specs s st).state = loopWrites specs s := by
  induction specs generalizing s st with
  | nil => rfl
  | cons spec rest ih =>
    unfold reconcileFirewallsLoop
    cases h1 : alGet spec.name s.firewalls with
    | some fw =>
      simp only [h1]
      unfold loopWrites
      rw [reconcileFirewallsLoop_preserve rest s _ spec.name fw h1, h1]
      rw [ih s _]
    | none =>
      simp only [h1, alGet_alSet_self]
      unfold loopWrites
      rw [reconcileFirewallsLoop_preserve rest _ _ spec.name spec (alGet_alSet_self _ _ _), h1]
      rw [ih _ _]

end Compute

/-! Idempotence machinery for the networks Reconcile. -/

namespace Networks

theorem subnetsReconcileStage_auto (scope : Scope) (n : Network) (s : CloudState)
    (h : n.autoCreateSubnetworks = true) :
    subnetsReconcileStage scope n s = ⟨.ok (), s, []⟩ := by
  unfold subnetsReconcileStage
  simp [h]

theorem subnetsReconcileStage_custom (scope : Scope) (n : Network) (s : CloudState)
    (h : n.autoCreateSubnetworks = false) :
    subnetsReconcileStage scope n s = reconcileSubnetsLoop scope.subnetworkSpec s := by
  unfold subnetsReconcileStage
  simp [h]

theorem subnetsReconcileStage_res (scope : Scope) (n : Network) (s : CloudState) :
    (subnetsReconcileStage scope n s).res = .ok () := by
  unfold subnetsReconcileStage
  split
  · rfl
  · exact reconcileSubnetsLoop_res scope.subnetworkSpec s

theorem subnetsReconcileStage_state (scope : Scope) (n : Network) (s : CloudState) :
    ∃ sl, (subnetsReconcileStage scope n s).state = { s with subnetworks := sl } := by
  unfold subnetsReconcileStage
  split
  · exact ⟨s.subnetworks, rfl⟩
  · exact reconcileSubnetsLoop_state scope.subnetworkSpec s

theorem subnetsReconcileStage_calls (scope : Scope) (n : Network) (s : CloudState) :
    ∀ c ∈ (subnetsReconcileStage scope n s).calls, ∃ k, c = .subnetInsert k := by
  unfold subnetsReconcileStage
  split
  · intro c hc
    simp at hc
  · exact reconcileSubnetsLoop_calls scope.subnetworkSpec s

/-- When the network is in auto mode, or every declared subnet is present,
the subnet phase is a complete no-op. -/
theorem subnetsReconcileStage_noop (scope : Scope) (n : Network) (s : CloudState)
    (h : n.autoCreateSubnetworks = false →
      ∀ sub ∈ scope.subnetworkSpec, (alGet (sub.name, sub.region) s.subnetworks).isSome) :
    subnetsReconcileStage scope n s = ⟨.ok (), s, []⟩ := by
  unfold subnetsReconcileStage
  split
  · rfl
  · rename_i hauto
    exact reconcileSubnetsLoop_all_present scope.subnetworkSpec s
      (h (by revert hauto; cases n.autoCreateSubnetworks <;> simp))

/-- After the subnet phase of a custom-mode network, every declared subnet
is present. -/
theorem subnetsReconcileStage_post (scope : Scope) (n : Network) (s : CloudState)
    (h : n.autoCreateSubnetworks = false) :
    ∀ sub ∈ scope.subnetworkSpec,
      (alGet (sub.name, sub.region)
        (subnetsReconcileStage scope n s).state.subnetworks).isSome := by
  rw [subnetsReconcileStage_custom scope n s h]
  exact reconcileSubnetsLoop_post scope.subnetworkSpec s

end Networks

namespace Networks

theorem reconcileTail_state (scope : Scope) (n : Network) (st : NetworkStatus)
    (s : CloudState) :
    ∃ sl rl, (reconcileTail scope n st s).state =
      { s with subnetworks := sl, routers := rl } := by
  obtain ⟨sl, hS2⟩ := subnetsReconcileStage_state scope n s
  unfold reconcileTail
  rw [opBind_ok _ _ _ () (subnetsReconcileStage_res scope n s)]
  by_cases hd : n.description = ClusterTagKey scope.name
  · cases hr : alGet (scope.natRouterSpec.name, scope.region)
        ((subnetsReconcileStage scope n s).state).routers with
    | some r =>
      simp only [hd, if_true, eq_self_iff_true,
        createOrGetRouter_found scope n _ r hr, opBind]
      exact ⟨sl, s.routers, by rw [hS2]⟩
    | none =>
      cases hsv : scope.isSharedVpc with
      | true =>
        simp only [hd, if_true, eq_self_iff_true,
          createOrGetRouter_shared_absent scope n _ hr hsv, opBind]
        exact ⟨sl, s.routers, by rw [hS2]⟩
      | false =>
        simp only [hd, if_true, eq_self_iff_true,
          createOrGetRouter_insert scope n _ hr hsv, opBind]
        refine ⟨sl, alSet (scope.natRouterSpec.name, scope.region)
          (adoptedRouterSpec scope n) ({ s with subnetworks := sl } : CloudState).routers, ?_⟩
        rw [hS2]
  · simp only [hd, if_false]
    exact ⟨sl, s.routers, by rw [hS2]⟩

/-- Running the Reconcile tail a second time, from the state and status the
first run produced, performs no call and changes nothing. -/
theorem reconcileTail_twice (scope : Scope) (n : Network) (st : NetworkStatus)
    (s : CloudState) :
    reconcileTail scope n (reconcileTail scope n st s).status
        ((reconcileTail scope n st s).state) =
      ⟨(reconcileTail scope n st s).res, (reconcileTail scope n st s).state,
       (reconcileTail scope n st s).status, []⟩ := by
  have hstage2 : subnetsReconcileStage scope n ((subnetsReconcileStage scope n s).state) =
      ⟨.ok (), (subnetsReconcileStage scope n s).state, []⟩ :=
    subnetsReconcileStage_noop scope n _ (subnetsReconcileStage_post scope n s)
  by_cases hd : n.description = ClusterTagKey scope.name
  · cases hr : alGet (scope.natRouterSpec.name, scope.region)
        ((subnetsReconcileStage scope n s).state).routers with
    | some r =>
      have hT1 : reconcileTail scope n st s =
          ⟨.ok (), (subnetsReconcileStage scope n s).state,
           { st with selfLink := some n.selfLink, router := some r.selfLink },
           (subnetsReconcileStage scope n s).calls⟩ := by
        unfold reconcileTail
        rw [opBind_ok _ _ _ () (subnetsReconcileStage_res scope n s)]
        simp [hd, createOrGetRouter_found scope n _ r hr, opBind]
      rw [hT1]
      have hT2 : reconcileTail scope n
          { st with selfLink := some n.selfLink, router := some r.selfLink }
          ((subnetsReconcileStage scope n s).state) =
          ⟨.ok (), (subnetsReconcileStage scope n s).state,
           { st with selfLink := some n.selfLink, router := some r.selfLink }, []⟩ := by
        unfold reconcileTail
        rw [opBind_ok _ _ _ () (by rw [hstage2])]
        rw [hstage2]
        simp [hd, createOrGetRouter_found scope n _ r hr, opBind]
      exact hT2
    | none =>
      cases hsv : scope.isSharedVpc with
      | true =>
        have hT1 : reconcileTail scope n st s =
            ⟨.error .notFound, (subnetsReconcileStage scope n s).state,
             { st with selfLink := some n.selfLink },
             (subnetsReconcileStage scope n s).calls⟩ := by
          unfold reconcileTail
          rw [opBind_ok _ _ _ () (subnetsReconcileStage_res scope n s)]
          simp [hd, createOrGetRouter_shared_absent scope n _ hr hsv, opBind]
        rw [hT1]
        have hT2 : reconcileTail scope n { st with selfLink := some n.selfLink }
            ((subnetsReconcileStage scope n s).state) =
            ⟨.error .notFound, (subnetsReconcileStage scope n s).state,
             { st with selfLink := some n.selfLink }, []⟩ := by
          unfold reconcileTail
          rw [opBind_ok _ _ _ () (by rw [hstage2])]
          rw [hstage2]
          simp [hd, createOrGetRouter_shared_absent scope n _ hr hsv, opBind]
        exact hT2
      | false =>
        have hres : (createOrGetRouter scope n ((subnetsReconcileStage scope n s).state)).res
            = .ok (adoptedRouterSpec scope n) := by
          rw [createOrGetRouter_insert scope n _ hr hsv]
        have hcalls : (createOrGetRouter scope n ((subnetsReconcileStage scope n s).state)).calls
            = [.routerInsert (scope.natRouterSpec.name, scope.region)] := by
          rw [createOrGetRouter_insert scope n _ hr hsv]
        have hT1 : reconcileTail scope n st s =
            ⟨.ok (),
             (createOrGetRouter scope n ((subnetsReconcileStage scope n s).state)).state,
             { st with selfLink := some n.selfLink,
                       router := some (adoptedRouterSpec scope n).selfLink },
             (subnetsReconcileStage scope n s).calls ++
               [.routerInsert (scope.natRouterSpec.name, scope.region)]⟩ := by
          unfold reconcileTail
          rw [opBind_ok _ _ _ () (subnetsReconcileStage_res scope n s)]
          simp only [hd, eq_self_iff_true, if_true]
          rw [opBind_ok _ _ _ (adoptedRouterSpec scope n) hres]
          rw [hcalls]
          simp
        rw [hT1]
        have hsub : (createOrGetRouter scope n
              ((subnetsReconcileStage scope n s).state)).state.subnetworks
            = ((subnetsReconcileStage scope n s).state).subnetworks := by
          rw [createOrGetRouter_insert scope n _ hr hsv]
        have hstage2b : subnetsReconcileStage scope n
            ((createOrGetRouter scope n ((subnetsReconcileStage scope n s).state)).state) =
            ⟨.ok (),
             (createOrGetRouter scope n ((subnetsReconcileStage scope n s).state)).state,
             []⟩ :=
          subnetsReconcileStage_noop scope n _
            (fun hfalse sub hsub2 => by
              rw [hsub]
              exact subnetsReconcileStage_post scope n s hfalse sub hsub2)
        have hr2 : alGet (scope.natRouterSpec.name, scope.region)
            ((createOrGetRouter scope n
              ((subnetsReconcileStage scope n s).state)).state).routers =
            some (adoptedRouterSpec scope n) := by
          rw [createOrGetRouter_insert scope n _ hr hsv]
          exact alGet_alSet_self _ _ _
        have hT2 : reconcileTail scope n
            { st with selfLink := some n.selfLink,
                      router := some (adoptedRouterSpec scope n).selfLink }
            ((createOrGetRouter scope n ((subnetsReconcileStage scope n s).state)).state) =
            ⟨.ok (),
             (createOrGetRouter scope n ((subnetsReconcileStage scope n s).state)).state,
             { st with selfLink := some n.selfLink,
                       router := some (adoptedRouterSpec scope n).selfLink }, []⟩ := by
          unfold reconcileTail
          rw [opBind_ok _ _ _ () (by rw [hstage2b])]
          rw [hstage2b]
          simp [hd, createOrGetRouter_found scope n _ (adoptedRouterSpec scope n) hr2, opBind]
        exact hT2
  · have hT1 : reconcileTail scope n st s =
        ⟨.ok (), (subnetsReconcileStage scope n s).state,
         { st with selfLink := some n.selfLink },
         (subnetsReconcileStage scope n s).calls⟩ := by
      unfold reconcileTail
      rw [opBind_ok _ _ _ () (subnetsReconcileStage_res scope n s)]
      simp [hd, opBind]
    rw [hT1]
    have hT2 : reconcileTail scope n { st with selfLink := some n.selfLink }
        ((subnetsReconcileStage scope n s).state) =
        ⟨.ok (), (subnetsReconcileStage scope n s).state,
         { st with selfLink := some n.selfLink }, []⟩ := by
      unfold reconcileTail
      rw [opBind_ok _ _ _ () (by rw [hstage2])]
      rw [hstage2]
      simp [hd, opBind]
    exact hT2

end Networks

namespace Networks

/-- Running Reconcile a second time, from the state and status the first
run produced, performs no provider mutation and returns the same result,
state and status. -/
theorem Reconcile_twice (scope : Scope) (s : CloudState) (st : NetworkStatus) :
    Reconcile scope (Reconcile scope s st).state (Reconcile scope s st).status =
      ⟨(Reconcile scope s st).res, (Reconcile scope s st).state,
       (Reconcile scope s st).status, []⟩ := by
  cases hn : alGet scope.networkName s.networks with
  | some n =>
    have hR1 : Reconcile scope s st =
        ⟨(reconcileTail scope n st s).res, (reconcileTail scope n st s).state,
         (reconcileTail scope n st s).status, (reconcileTail scope n st s).calls⟩ := by
      unfold Reconcile
      rw [opBind_ok _ _ _ n (by rw [createOrGetNetwork_found scope s n hn])]
      rw [createOrGetNetwork_found scope s n hn]
      simp
    have hnet : alGet scope.networkName (reconcileTail scope n st s).state.networks = some n := by
      obtain ⟨sl, rl, hT⟩ := reconcileTail_state scope n st s
      rw [hT]
      exact hn
    have hR2 : Reconcile scope ((reconcileTail scope n st s).state)
        ((reconcileTail scope n st s).status) =
        ⟨(reconcileTail scope n st s).res, (reconcileTail scope n st s).state,
         (reconcileTail scope n st s).status, []⟩ := by
      unfold Reconcile
      rw [opBind_ok _ _ _ n (by rw [createOrGetNetwork_found _ _ n hnet])]
      rw [createOrGetNetwork_found _ _ n hnet]
      rw [reconcileTail_twice scope n st s]
      simp
    rw [hR1]
    exact hR2
  | none =>
    cases hs : scope.isSharedVpc with
    | true =>
      have hR1 : Reconcile scope s st = ⟨.error .notFound, s, st, []⟩ := by
        unfold Reconcile
        rw [opBind_error _ _ _ .notFound
          (by rw [createOrGetNetwork_shared_absent scope s hn hs])]
        rw [createOrGetNetwork_shared_absent scope s hn hs]
      rw [hR1]
      exact hR1
    | false =>
      have hins := createOrGetNetwork_insert scope s hn hs
      have hR1 : Reconcile scope s st =
          ⟨(reconcileTail scope scope.networkSpec st
              { s with networks := alSet scope.networkName scope.networkSpec s.networks }).res,
           (reconcileTail scope scope.networkSpec st
              { s with networks := alSet scope.networkName scope.networkSpec s.networks }).state,
           (reconcileTail scope scope.networkSpec st
              { s with networks := alSet scope.networkName scope.networkSpec s.networks }).status,
           .networkInsert scope.networkName ::
             (reconcileTail scope scope.networkSpec st
              { s with networks := alSet scope.networkName scope.networkSpec s.networks }).calls⟩ := by
        unfold Reconcile
        rw [opBind_ok _ _ _ scope.networkSpec (by rw [hins])]
        rw [hins]
        simp
      have hnet : alGet scope.networkName
          (reconcileTail scope scope.networkSpec st
            { s with networks := alSet scope.networkName scope.networkSpec s.networks }).state.networks =
          some scope.networkSpec := by
        obtain ⟨sl, rl, hT⟩ := reconcileTail_state scope scope.networkSpec st
          { s with networks := alSet scope.networkName scope.networkSpec s.networks }
        rw [hT]
        exact alGet_alSet_self _ _ _
      have hR2 : Reconcile scope
          ((reconcileTail scope scope.networkSpec st
            { s with networks := alSet scope.networkName scope.networkSpec s.networks }).state)
          ((reconcileTail scope scope.networkSpec st
            { s with networks := alSet scope.networkName scope.networkSpec s.networks }).status) =
          ⟨(reconcileTail scope scope.networkSpec st
              { s with networks := alSet scope.networkName scope.networkSpec s.networks }).res,
           (reconcileTail scope scope.networkSpec st
              { s with networks := alSet scope.networkName scope.networkSpec s.networks }).state,
           (reconcileTail scope scope.networkSpec st
              { s with networks := alSet scope.networkName scope.networkSpec s.networks }).status,
           []⟩ := by
        unfold Reconcile
        rw [opBind_ok _ _ _ scope.networkSpec
          (by rw [createOrGetNetwork_found _ _ scope.networkSpec hnet])]
        rw [createOrGetNetwork_found _ _ scope.networkSpec hnet]
        rw [reconcileTail_twice scope scope.networkSpec st
          { s with networks := alSet scope.networkName scope.networkSpec s.networks }]
        simp
      rw [hR1]
      exact hR2

end Networks

namespace Compute

/-- A firewall delete call never aborts the caller: it either succeeds or
reports NotFound, which checkOrWaitForDeleteOp absorbs. -/
theorem firewallDelete_checkOrWait (nm : String) (s : CloudState) :
    checkOrWaitForDeleteOp (resToErr (firewallClientDelete nm s).1) = none := by
  unfold firewallClientDelete
  cases h : alGet nm s.firewalls <;>
    simp [h, resToErr, checkOrWaitForDeleteOp, isNotFound]

/-- The tag loop always succeeds. -/
theorem sweepTagsLoop_res (cl nm : String) (tags : List String) (s : CloudState) :
    (sweepTagsLoop cl nm tags s).res = .ok () := by
  induction tags generalizing s with
  | nil => rfl
  | cons tt rest ih =>
    unfold sweepTagsLoop
    by_cases h : tt = cl
    · simp only [h, if_true, eq_self_iff_true, firewallDelete_checkOrWait]
      exact ih _
    · simp only [h, if_false]
      exact ih s

/-- The tag loop issues a delete of the rule for each matching tag: a
delete call of name `nm2` appears exactly when `nm2` is the rule's name and
the cluster name occurs among the tags. -/
theorem sweepTagsLoop_mem (cl nm nm2 : String) (tags : List String) (s : CloudState) :
    Call.firewallDelete nm2 ∈ (sweepTagsLoop cl nm tags s).calls ↔
      (nm2 = nm ∧ cl ∈ tags) := by
  induction tags generalizing s with
  | nil => simp [sweepTagsLoop]
  | cons tt rest ih =>
    unfold sweepTagsLoop
    by_cases h : tt = cl
    · simp only [h, if_true, eq_self_iff_true, firewallDelete_checkOrWait]
      simp only [List.mem_cons, Call.firewallDelete.injEq]
      rw [ih]
      subst h
      simp
      tauto
    · simp only [h, if_false]
      rw [ih]
      have : cl ≠ tt := fun hc => h hc.symm
      simp [this]

/-- getFirewallNetworkName never fails in the model (url.Parse fails only
on malformed control or percent sequences). -/
theorem getFirewallNetworkName_ok (fw : Firewall) :
    ∃ nn, getFirewallNetworkName fw = .ok nn := by
  unfold getFirewallNetworkName
  split
  · exact ⟨"", rfl⟩
  · exact ⟨_, rfl⟩

/-- Sweep precision, as a trace characterization: the sweep issues a delete
call for rule name `nm` exactly when the listed rules contain a rule of
that name whose network reference resolves to the cluster's network name
and whose target tags contain the cluster name. -/
theorem sweepFirewalls_mem (scope : Scope) (rules : List Firewall) (s : CloudState)
    (nm : String) :
    Call.firewallDelete nm ∈ (sweepFirewalls scope rules s).calls ↔
      ∃ fw, fw ∈ rules ∧ fw.name = nm ∧
        getFirewallNetworkName fw = .ok scope.networkName ∧
        scope.name ∈ fw.targetTags := by
  induction rules generalizing s with
  | nil => simp [sweepFirewalls]
  | cons fw rest ih =>
    obtain ⟨nn, hnn⟩ := getFirewallNetworkName_ok fw
    unfold sweepFirewalls
    rw [hnn]
    by_cases hmatch : nn = scope.networkName
    · simp only [hmatch, if_true, eq_self_iff_true]
      rw [sweepTagsLoop_res scope.name fw.name fw.targetTags s]
      simp only [List.mem_append]
      rw [sweepTagsLoop_mem, ih]
      constructor
      · rintro (⟨hnm, htag⟩ | ⟨fw2, hfw2, hnm2, hok2, htag2⟩)
        · exact ⟨fw, List.mem_cons_self fw rest, hnm.symm, by rw [hnn, hmatch], htag⟩
        · exact ⟨fw2, List.mem_cons_of_mem fw hfw2, hnm2, hok2, htag2⟩
      · rintro ⟨fw2, hfw2, hnm2, hok2, htag2⟩
        rcases List.mem_cons.mp hfw2 with hfw2 | hfw2
        · subst hfw2
          exact Or.inl ⟨hnm2.symm, htag2⟩
        · exact Or.inr ⟨fw2, hfw2, hnm2, hok2, htag2⟩
    · simp only [hmatch, if_false]
      rw [ih]
      constructor
      · rintro ⟨fw2, hfw2, hnm2, hok2, htag2⟩
        exact ⟨fw2, List.mem_cons_of_mem fw hfw2, hnm2, hok2, htag2⟩
      · rintro ⟨fw2, hfw2, hnm2, hok2, htag2⟩
        rcases List.mem_cons.mp hfw2 with hfw2 | hfw2
        · subst hfw2
          rw [hnn] at hok2
          cases hok2
          exact absurd rfl hmatch
        · exact ⟨fw2, hfw2, hnm2, hok2, htag2⟩

/-- The bastion is created only under the network ownership guard. -/
theorem ReconcileBastion_guard (scope : Scope) (s : CloudState) (st : NetworkStatus)
    (k : String × String)
    (h : Call.instanceInsert k ∈ (ReconcileBastion scope s st).calls) :
    ∃ n, alGet scope.networkName s.networks = some n ∧
         n.description = ClusterTagKey scope.name := by
  unfold ReconcileBastion at h
  revert h
  cases hn : alGet scope.networkName s.networks with
  | none => intro h; simp at h
  | some n =>
    by_cases hd : n.description = ClusterTagKey scope.name
    · intro _
      exact ⟨n, rfl, hd⟩
    · intro h
      simp [hd] at h

/-- The bastion is deleted only under the network ownership guard. -/
theorem DeleteBastion_guard (scope : Scope) (s : CloudState) (st : NetworkStatus)
    (k : String × String)
    (h : Call.instanceDelete k ∈ (DeleteBastion scope s st).calls) :
    ∃ n, alGet scope.networkName s.networks = some n ∧
         n.description = ClusterTagKey scope.name := by
  unfold DeleteBastion at h
  revert h
  cases hn : alGet scope.networkName s.networks with
  | none => intro h; simp at h
  | some n =>
    by_cases hd : n.description = ClusterTagKey scope.name
    · intro _
      exact ⟨n, rfl, hd⟩
    · intro h
      simp [hd] at h

end Compute

namespace Networks

/-- The network get-or-create step issues at most the network insert. -/
theorem createOrGetNetwork_calls (scope : Scope) (s : CloudState) :
    ∀ c ∈ (createOrGetNetwork scope s).calls, c = .networkInsert scope.networkName := by
  unfold createOrGetNetwork
  cases h : alGet scope.networkName s.networks with
  | some n => simp
  | none =>
    cases hs : scope.isSharedVpc with
    | true => simp
    | false => simp [alGet_alSet_self]

/-- A router insert in the Reconcile tail happens only under the network
ownership guard. -/
theorem reconcileTail_routerInsert_guard (scope : Scope) (n : Network)
    (st : NetworkStatus) (s : CloudState) (k : String × String)
    (h : Call.routerInsert k ∈ (reconcileTail scope n st s).calls) :
    n.description = ClusterTagKey scope.name := by
  by_cases hd : n.description = ClusterTagKey scope.name
  · exact hd
  · exfalso
    unfold reconcileTail at h
    rw [opBind_ok _ _ _ () (subnetsReconcileStage_res scope n s)] at h
    simp only [hd, if_false] at h
    simp at h
    obtain ⟨k2, hk2⟩ := subnetsReconcileStage_calls scope n _ _ h
    simp at hk2

/-- Router adoption (create-or-get of the router, recording its self-link)
happens only when the fetched network's ownership tag matches. -/
theorem Reconcile_routerInsert_guard (scope : Scope) (s : CloudState)
    (st : NetworkStatus) (k : String × String)
    (h : Call.routerInsert k ∈ (Reconcile scope s st).calls) :
    ∃ n, (createOrGetNetwork scope s).res = .ok n ∧
         n.description = ClusterTagKey scope.name := by
  unfold Reconcile at h
  cases h0 : (createOrGetNetwork scope s).res with
  | error e =>
    rw [opBind_error _ _ _ e h0] at h
    exact absurd (createOrGetNetwork_calls scope s _ h) (by simp)
  | ok n =>
    rw [opBind_ok _ _ _ n h0] at h
    simp only [List.mem_append] at h
    rcases h with h | h
    · exact absurd (createOrGetNetwork_calls scope s _ h) (by simp)
    · exact ⟨n, rfl, reconcileTail_routerInsert_guard scope n st _ _ h⟩

/-- A delete fault makes the router client answer with the injected error. -/
theorem routerClientDelete_fault (k : String × String) (s : CloudState) (e : GCPError)
    (h : alGet k s.routerDeleteFaults = some e) :
    routerClientDelete k s = (.error e, s) := by
  unfold routerClientDelete
  simp [h]

/-- A delete fault makes the route client answer with the injected error. -/
theorem routeClientDelete_fault (k : String) (s : CloudState) (e : GCPError)
    (h : alGet k s.routeDeleteFaults = some e) :
    routeClientDelete k s = (.error e, s) := by
  unfold routeClientDelete
  simp [h]

/-- Without a fetched router there is nothing to delete. -/
theorem deleteRouterStep_absent (scope : Scope) (s : CloudState)
    (h : alGet (natRouterKey scope) s.routers = none) :
    deleteRouterStep scope s = ⟨.ok (), s, []⟩ := by
  unfold deleteRouterStep
  simp [h]

end Networks

/-! Additional fixtures for witnesses and counterexamples. -/

/-- A network carrying a foreign ownership tag. -/
def exForeignNetwork : Network :=
  { exNetwork with description := "someone-elses-tag" }

/-- A world whose network is owned by another entity. -/
def exForeignState : CloudState :=
  { exState with networks := [("my-network", exForeignNetwork)] }

/-- The example scope in shared-VPC mode. -/
def sharedScope : Scope := { exScope with isSharedVpc := true }

/-- An owned custom-mode network whose declared subnet is missing. -/
def cx6State : CloudState := { exState with subnetworks := [] }

/-- An owned auto-mode network (no declared-subnet processing). -/
def exAutoNetwork : Network := { exNetwork with autoCreateSubnetworks := true }

/-- An owned auto-mode network alone, with a NotFound response injected on
its delete call. -/
def cx5State : CloudState :=
  { emptyState with
    networks := [("my-network", exAutoNetwork)]
    networkDeleteFaults := [("my-network", .notFound)] }

/-- The NAT router of the example world carrying one NAT config. -/
def exRouterWithNat : Router :=
  { exRouter with nats := [Compute.getRouterNatSpec exScope] }

/-- The example world with the NAT config already attached. -/
def exStateWithNat : CloudState :=
  { exState with routers := [(("my-network-router", "us-east1"), exRouterWithNat)] }

/-- The example world with a bastion instance running. -/
def exBastionState : CloudState :=
  { exState with
    instances := [(("my-cluster-bastion", "us-east1-a"), Compute.getDefaultBastion exScope)] }

/-! The claims. -/

/-- Claim C4: a network Delete that fetches a network whose description tag
does not equal the cluster's derived ownership tag performs zero mutating
provider calls and returns success. -/
theorem delete_foreign_network_noop (scope : Scope) (s : CloudState)
    (st : NetworkStatus) (n : Network)
    (hs : scope.isSharedVpc = false)
    (hn : alGet scope.networkName s.networks = some n)
    (hd : n.description ≠ ClusterTagKey scope.name) :
    (Networks.Delete scope s st).res = .ok () ∧
    (Networks.Delete scope s st).calls = [] := by
  rw [Networks.Delete_foreign scope s st n hs hn hd]
  exact ⟨rfl, rfl⟩

/-- Witness for claim C4 at a concrete foreign-network world. -/
theorem delete_foreign_network_noop_witness :
    (Networks.Delete exScope exForeignState emptyStatus).res = .ok () ∧
    (Networks.Delete exScope exForeignState emptyStatus).calls = [] :=
  delete_foreign_network_noop exScope exForeignState emptyStatus exForeignNetwork
    (by decide) (by decide) (by decide)

/-- Claim C7: for every provider-wide firewall rule list, the sweep in
DeleteFirewalls deletes exactly those rules whose network reference
resolves (by final path segment) to this cluster's network name and whose
target-tag set contains the cluster's name; a rule on a different network,
or without the cluster name among its target tags, is never deleted by the
sweep. -/
theorem firewall_sweep_precision (scope : Scope) (rules : List Firewall)
    (s : CloudState) (nm : String) :
    Call.firewallDelete nm ∈ (Compute.sweepFirewalls scope rules s).calls ↔
      ∃ fw, fw ∈ rules ∧ fw.name = nm ∧
        Compute.getFirewallNetworkName fw = .ok scope.networkName ∧
        scope.name ∈ fw.targetTags :=
  Compute.sweepFirewalls_mem scope rules s nm

/-- Claim C8: network-name extraction from a firewall's network reference:
a full relative reference yields its final path segment, and an empty
reference yields an empty name, both without error. -/
theorem firewall_network_name_parsing :
    Compute.getFirewallNetworkName
        { name := "fw", network := "projects/myproject/global/networks/my-network",
          allowed := [], direction := "", sourceRanges := [], sourceTags := [],
          targetTags := [], selfLink := "" } = .ok ("my-network") ∧
    Compute.getFirewallNetworkName
        { name := "fw", network := "", allowed := [], direction := "",
          sourceRanges := [], sourceTags := [], targetTags := [], selfLink := "" } =
      .ok ("") := by
  constructor
  · decide
  · decide

/-- Claim C9: NAT attach semantics of createCloudNat when the router
already exists: with no NAT config, exactly one NAT config — auto-allocated
external IPs, all subnetworks, all IP ranges — is patched in (the patch
operation is waited on, which is the identity in this synchronous model);
with at least one NAT config present, no Patch call is issued and the
stored configuration is left unchanged. -/
theorem nat_attach_semantics (scope : Scope) (network : Network) (s : CloudState)
    (st : NetworkStatus) (r : Router)
    (hr : alGet (Compute.getRouterName scope.networkName, scope.region) s.routers = some r) :
    (r.nats = [] →
      Compute.createCloudNat scope network s st =
        ⟨.ok (),
         { s with routers := (alSet (Compute.getRouterName scope.networkName, scope.region)
             ({ r with nats := [Compute.getRouterNatSpec scope] }) s.routers) },
         { st with router := some r.selfLink },
         [.routerPatch (Compute.getRouterName scope.networkName, scope.region)]⟩) ∧
    (Compute.getRouterNatSpec scope).natIpAllocateOption = "AUTO_ONLY" ∧
    (Compute.getRouterNatSpec scope).sourceSubnetworkIpRangesToNat =
      "ALL_SUBNETWORKS_ALL_IP_RANGES" ∧
    (r.nats ≠ [] →
      Compute.createCloudNat scope network s st =
        ⟨.ok (), s, { st with router := some r.selfLink }, []⟩) := by
  refine ⟨?_, rfl, rfl, ?_⟩
  · intro hnil
    unfold Compute.createCloudNat
    simp [hr, hnil]
  · intro hne
    unfold Compute.createCloudNat
    cases hns : r.nats with
    | nil => exact absurd hns hne
    | cons a t => simp [hr, hns]

/-- Witness for claim C9: the no-NAT router gets exactly one config patched
in; the router that already carries one is left alone. -/
theorem nat_attach_semantics_witness :
    (Compute.createCloudNat exScope exNetwork exState emptyStatus =
      ⟨.ok (),
       { exState with routers := (alSet ("my-network-router", "us-east1")
           ({ exRouter with nats := [Compute.getRouterNatSpec exScope] }) exState.routers) },
       { emptyStatus with router := some "routerlink" },
       [.routerPatch ("my-network-router", "us-east1")]⟩) ∧
    (Compute.createCloudNat exScope exNetwork exStateWithNat emptyStatus =
      ⟨.ok (), exStateWithNat, { emptyStatus with router := some "routerlink" }, []⟩) := by
  constructor
  · exact (nat_attach_semantics exScope exNetwork exState emptyStatus exRouter
      (by decide)).1 (by decide)
  · exact (nat_attach_semantics exScope exNetwork exStateWithNat emptyStatus exRouterWithNat
      (by decide)).2.2.2 (by decide)

/-- Claim C10: when network Delete returns success without deleting
anything — network absent, or foreign ownership tag — the recorded status
self-links are left unchanged; the status is cleared only on the shared-VPC
skip path or when the network delete call itself was issued and the whole
call succeeded. -/
theorem delete_status_preservation (scope : Scope) (s : CloudState) (st : NetworkStatus) :
    (scope.isSharedVpc = false → alGet scope.networkName s.networks = none →
       (Networks.Delete scope s st).status = st ∧
       (Networks.Delete scope s st).res = .ok ()) ∧
    (∀ n, scope.isSharedVpc = false → alGet scope.networkName s.networks = some n →
       n.description ≠ ClusterTagKey scope.name →
       (Networks.Delete scope s st).status = st ∧
       (Networks.Delete scope s st).res = .ok ()) ∧
    ((Networks.Delete scope s st).status ≠ st →
       scope.isSharedVpc = true ∨
       ((Networks.Delete scope s st).res = .ok () ∧
        Call.networkDelete scope.networkName ∈ (Networks.Delete scope s st).calls)) ∧
    (scope.isSharedVpc = true →
       (Networks.Delete scope s st).status = { st with router := none, selfLink := none }) := by
  refine ⟨?_, ?_, ?_, ?_⟩
  · intro hs hn
    rw [Networks.Delete_absent scope s st hs hn]
    exact ⟨rfl, rfl⟩
  · intro n hs hn hd
    rw [Networks.Delete_foreign scope s st n hs hn hd]
    exact ⟨rfl, rfl⟩
  · intro hne
    rcases Networks.Delete_status_shape scope s st with h | ⟨hclear, hor⟩
    · exact absurd h hne
    · exact hor
  · intro hs
    rw [Networks.Delete_shared scope s st hs]

/-- Witness for claim C10: absent network and foreign network leave a
populated status untouched; a successful owned delete that did change the
status issued the network delete call. -/
theorem delete_status_preservation_witness :
    ((Networks.Delete exScope emptyState
        { emptyStatus with selfLink := some "x" }).status =
        { emptyStatus with selfLink := some "x" } ∧
     (Networks.Delete exScope emptyState
        { emptyStatus with selfLink := some "x" }).res = .ok ()) ∧
    ((Networks.Delete exScope exForeignState
        { emptyStatus with selfLink := some "x" }).status =
        { emptyStatus with selfLink := some "x" } ∧
     (Networks.Delete exScope exForeignState
        { emptyStatus with selfLink := some "x" }).res = .ok ()) ∧
    (exScope.isSharedVpc = true ∨
     ((Networks.Delete exScope exState
        { emptyStatus with selfLink := some "x" }).res = .ok () ∧
      Call.networkDelete "my-network" ∈
        (Networks.Delete exScope exState
          { emptyStatus with selfLink := some "x" }).calls)) := by
  refine ⟨?_, ?_, ?_⟩
  · exact (delete_status_preservation exScope emptyState
      { emptyStatus with selfLink := some "x" }).1 (by decide) (by decide)
  · exact (delete_status_preservation exScope exForeignState
      { emptyStatus with selfLink := some "x" }).2.1 exForeignNetwork
      (by decide) (by decide) (by decide)
  · exact (delete_status_preservation exScope exState
      { emptyStatus with selfLink := some "x" }).2.2.1 (by decide)

namespace Networks

/-- Every call of the Reconcile tail in shared-VPC mode is a subnet insert:
the router create path is guarded against shared VPCs. -/
theorem reconcileTail_calls_shared (scope : Scope) (n : Network) (st : NetworkStatus)
    (s : CloudState) (hs : scope.isSharedVpc = true) :
    ∀ c ∈ (reconcileTail scope n st s).calls, ∃ k, c = Call.subnetInsert k := by
  intro c hc
  unfold reconcileTail at hc
  rw [opBind_ok _ _ _ () (subnetsReconcileStage_res scope n s)] at hc
  rcases List.mem_append.mp hc with hc | hc
  · exact subnetsReconcileStage_calls scope n s c hc
  · exfalso
    by_cases hd : n.description = ClusterTagKey scope.name
    · simp only [hd, eq_self_iff_true, if_true] at hc
      cases hr : alGet (scope.natRouterSpec.name, scope.region)
          ((subnetsReconcileStage scope n s).state).routers with
      | some r =>
        rw [opBind_ok _ _ _ r (by rw [createOrGetRouter_found scope n _ r hr])] at hc
        rw [createOrGetRouter_found scope n _ r hr] at hc
        simp at hc
      | none =>
        rw [opBind_error _ _ _ .notFound
          (by rw [createOrGetRouter_shared_absent scope n _ hr hs])] at hc
        rw [createOrGetRouter_shared_absent scope n _ hr hs] at hc
        simp at hc
    · simp only [hd, if_false] at hc
      simp at hc

/-- In shared-VPC mode, the network get-or-create step issues no call. -/
theorem createOrGetNetwork_calls_shared (scope : Scope) (s : CloudState)
    (hs : scope.isSharedVpc = true) : (createOrGetNetwork scope s).calls = [] := by
  unfold createOrGetNetwork
  cases h : alGet scope.networkName s.networks with
  | some n => rfl
  | none => simp [hs]

end Networks

/-- Claim C6 counterexample: with shared-VPC declared and the shared network
present in custom mode, Reconcile does issue a subnetwork Insert for a
missing declared subnet, contradicting "zero Insert/Delete calls against
the network, subnetwork, or router clients". -/
theorem shared_vpc_counterexample :
    Call.subnetInsert ("sub1", "us-east1") ∈
      (Networks.Reconcile sharedScope cx6State emptyStatus).calls := by
  decide

/-- Claim C6 (amended): when shared-VPC mode is declared, Reconcile and
Delete issue zero Insert/Delete calls against the network and router
clients and zero Delete calls against the subnetwork client — every call
Reconcile issues is a subnetwork Insert for a missing declared subnet of a
custom-mode shared network; Reconcile fails immediately if the shared
network does not pre-exist, never creating it; and Delete clears the status
self-links and returns success without any call. -/
theorem shared_vpc_amended (scope : Scope) (s : CloudState) (st : NetworkStatus)
    (hs : scope.isSharedVpc = true) :
    (∀ c ∈ (Networks.Reconcile scope s st).calls, ∃ k, c = Call.subnetInsert k) ∧
    (alGet scope.networkName s.networks = none →
       Networks.Reconcile scope s st = ⟨.error .notFound, s, st, []⟩) ∧
    Networks.Delete scope s st =
      ⟨.ok (), s, { st with router := none, selfLink := none }, []⟩ := by
  refine ⟨?_, ?_, Networks.Delete_shared scope s st hs⟩
  · intro c hc
    unfold Networks.Reconcile at hc
    cases h0 : (Networks.createOrGetNetwork scope s).res with
    | error e =>
      rw [Networks.opBind_error _ _ _ e h0] at hc
      rw [Networks.createOrGetNetwork_calls_shared scope s hs] at hc
      simp at hc
    | ok n =>
      rw [Networks.opBind_ok _ _ _ n h0] at hc
      rcases List.mem_append.mp hc with hc | hc
      · rw [Networks.createOrGetNetwork_calls_shared scope s hs] at hc
        simp at hc
      · exact Networks.reconcileTail_calls_shared scope n st _ hs c hc
  · intro hn
    unfold Networks.Reconcile
    rw [Networks.opBind_error _ _ _ .notFound
      (by rw [Networks.createOrGetNetwork_shared_absent scope s hn hs])]
    rw [Networks.createOrGetNetwork_shared_absent scope s hn hs]

/-- Witness for claim C6 at concrete shared-VPC worlds. -/
theorem shared_vpc_witness :
    (∃ k, Call.subnetInsert ("sub1", "us-east1") = Call.subnetInsert k) ∧
    (Networks.Reconcile sharedScope emptyState emptyStatus =
      ⟨.error .notFound, emptyState, emptyStatus, []⟩) ∧
    (Networks.Delete sharedScope exState emptyStatus =
      ⟨.ok (), exState, { emptyStatus with router := none, selfLink := none }, []⟩) := by
  refine ⟨?_, ?_, ?_⟩
  · exact (shared_vpc_amended sharedScope cx6State emptyStatus (by decide)).1 _ (by decide)
  · exact (shared_vpc_amended sharedScope emptyState emptyStatus (by decide)).2.1 (by decide)
  · exact (shared_vpc_amended sharedScope exState emptyStatus (by decide)).2.2

/-- The teardown order the claim asserts: router deletes, then route
deletes, then subnet deletes, then the network delete. -/
def claimDeleteRank : Call → Nat
  | .routerDelete _ => 0
  | .routeDelete _ => 1
  | .subnetDelete _ => 2
  | .networkDelete _ => 3
  | _ => 0

/-- Claim C3 counterexample: on a concrete owned custom-mode world with one
subnet and one discovered route, the Delete trace violates the claimed
order — the subnet delete is issued before the route delete, so the trace
is not sorted by the claim's ranks. -/
theorem delete_order_counterexample :
    ¬ List.Pairwise (fun a b => claimDeleteRank a ≤ claimDeleteRank b)
        (Networks.Delete exScope exState emptyStatus).calls := by
  decide

/-- Claim C3 (amended): the delete steps occur in the order (1) router —
only if the router's own ownership tag matches — (2) every declared
subnetwork when the network is in custom mode, (3) every route discovered
by the node-route description listing whose network reference ends with
this network's name, (4) the network itself; router deletion is invoked
before subnet deletion, before route deletion, before network deletion,
never the reverse, and on success the network delete is the final call. -/
theorem delete_order_amended (scope : Scope) (s : CloudState) (st : NetworkStatus) :
    List.Pairwise (fun a b => Networks.deleteRank a ≤ Networks.deleteRank b)
      (Networks.Delete scope s st).calls ∧
    (∀ k, Call.routerDelete k ∈ (Networks.Delete scope s st).calls →
       ∃ r, alGet (Networks.natRouterKey scope) s.routers = some r ∧
            r.description = ClusterTagKey scope.name) ∧
    (∀ k, Call.subnetDelete k ∈ (Networks.Delete scope s st).calls →
       ∃ n, alGet scope.networkName s.networks = some n ∧
            n.autoCreateSubnetworks = false) ∧
    (∀ nm, Call.routeDelete nm ∈ (Networks.Delete scope s st).calls →
       ∃ rt, rt ∈ listRoutesByDescription k8sNodeRouteTag s ∧ rt.name = nm ∧
             strEndsWith rt.network scope.networkName = true) ∧
    (∀ n, scope.isSharedVpc = false →
       alGet scope.networkName s.networks = some n →
       n.description = ClusterTagKey scope.name →
       (Networks.Delete scope s st).res = .ok () →
       (Networks.Delete scope s st).calls.getLast? =
         some (.networkDelete scope.networkName)) := by
  refine ⟨Networks.Delete_calls_sorted scope s st, ?_, ?_, ?_, ?_⟩
  · intro k hk
    rcases Networks.Delete_calls_shape scope s st with hempty |
      ⟨hs, n, hn, hd, t2, t3, t4, hcalls, h2, ht2, h3, h4, hsucc⟩
    · rw [hempty] at hk
      simp at hk
    · rw [hcalls] at hk
      rcases List.mem_append.mp hk with hk | hk
      · rcases Networks.deleteRouterStep_calls scope s with h0 | ⟨h0, hr⟩
        · rw [h0] at hk
          simp at hk
        · exact hr
      · exfalso
        rcases List.mem_append.mp hk with hk | hk
        · obtain ⟨k2, hk2⟩ := h2 _ hk
          simp at hk2
        · rcases List.mem_append.mp hk with hk | hk
          · obtain ⟨nm, hnm, _⟩ := h3 _ hk
            simp at hnm
          · have := h4 _ hk
            simp at this
  · intro k hk
    rcases Networks.Delete_calls_shape scope s st with hempty |
      ⟨hs, n, hn, hd, t2, t3, t4, hcalls, h2, ht2, h3, h4, hsucc⟩
    · rw [hempty] at hk
      simp at hk
    · rw [hcalls] at hk
      rcases List.mem_append.mp hk with hk | hk
      · exfalso
        rcases Networks.deleteRouterStep_calls scope s with h0 | ⟨h0, _⟩ <;> rw [h0] at hk <;>
          simp at hk
      · rcases List.mem_append.mp hk with hk | hk
        · refine ⟨n, hn, ?_⟩
          cases hauto : n.autoCreateSubnetworks with
          | false => rfl
          | true =>
            exfalso
            rcases ht2 with ht2 | ht2
            · rw [ht2] at hk
              simp at hk
            · rw [ht2, Networks.subnetsDeleteStage_auto scope n _ hauto] at hk
              simp at hk
        · exfalso
          rcases List.mem_append.mp hk with hk | hk
          · obtain ⟨nm, hnm, _⟩ := h3 _ hk
            simp at hnm
          · have := h4 _ hk
            simp at this
  · intro nm hk
    rcases Networks.Delete_calls_shape scope s st with hempty |
      ⟨hs, n, hn, hd, t2, t3, t4, hcalls, h2, ht2, h3, h4, hsucc⟩
    · rw [hempty] at hk
      simp at hk
    · rw [hcalls] at hk
      rcases List.mem_append.mp hk with hk | hk
      · exfalso
        rcases Networks.deleteRouterStep_calls scope s with h0 | ⟨h0, _⟩ <;> rw [h0] at hk <;>
          simp at hk
      · rcases List.mem_append.mp hk with hk | hk
        · exfalso
          obtain ⟨k2, hk2⟩ := h2 _ hk
          simp at hk2
        · rcases List.mem_append.mp hk with hk | hk
          · obtain ⟨nm2, hnm2, rt, hrt, hname, hsuf⟩ := h3 _ hk
            simp only [Call.routeDelete.injEq] at hnm2
            subst hnm2
            exact ⟨rt, hrt, hname, hsuf⟩
          · exfalso
            have := h4 _ hk
            simp at this
  · intro n hs hn hd hres
    exact Networks.Delete_success_last scope s st n hs hn hd hres

/-- Witness for claim C3 at the concrete owned custom-mode world. -/
theorem delete_order_amended_witness :
    (∃ r, alGet (Networks.natRouterKey exScope) exState.routers = some r ∧
          r.description = ClusterTagKey exScope.name) ∧
    (∃ n, alGet exScope.networkName exState.networks = some n ∧
          n.autoCreateSubnetworks = false) ∧
    (∃ rt, rt ∈ listRoutesByDescription k8sNodeRouteTag exState ∧ rt.name = "rt1" ∧
           strEndsWith rt.network exScope.networkName = true) ∧
    (Networks.Delete exScope exState emptyStatus).calls.getLast? =
      some (.networkDelete exScope.networkName) := by
  have h := delete_order_amended exScope exState emptyStatus
  exact ⟨h.2.1 (Networks.natRouterKey exScope) (by decide),
         h.2.2.1 ("sub1", "us-east1") (by decide),
         h.2.2.2.1 ("rt1") (by decide),
         h.2.2.2.2 exNetwork (by decide) (by decide) (by decide) (by decide)⟩

/-- A world with an owned router whose delete call answers NotFound. -/
def exRouterFaultState : CloudState :=
  { exState with
    routerDeleteFaults := [(("my-network-router", "us-east1"), GCPError.notFound)] }

/-- An owned auto-mode network alone, with a non-NotFound error injected on
its delete call. -/
def cx5bState : CloudState :=
  { emptyState with
    networks := [("my-network", exAutoNetwork)]
    networkDeleteFaults := [("my-network", GCPError.other ("boom"))] }

/-- An owned auto-mode network with one matching node route whose delete
call answers with a non-NotFound error. -/
def cx5dState : CloudState :=
  { emptyState with
    networks := [("my-network", exAutoNetwork)]
    routes := [("rt1", exRoute)]
    routeDeleteFaults := [("rt1", GCPError.other ("boom"))] }

/-- Claim C5 counterexample: a NotFound answer on the network delete call
itself is NOT treated as success — Delete returns the NotFound error, so
NotFound is not tolerated "throughout" the teardown. -/
theorem delete_notfound_counterexample :
    (Networks.Delete exScope cx5State emptyStatus).res =
      Except.error GCPError.notFound := by
  decide

/-- Claim C5 (amended): during Delete, a NotFound error is tolerated when
fetching the network (absent network means success) and on the router
delete call; every other step's failure — NotFound included on the subnet,
route, and network delete calls — aborts the teardown and the error is
returned unchanged (the failing resource's identity is only logged, never
wrapped into the returned error). Shown here: (1) absent network gives
success; (2) a NotFound answer on the owned router's delete call is
swallowed and the step succeeds; (3) an error answered by the network
delete call is returned unchanged as the result; (4) an error answered by a
matching route's delete call is returned unchanged as the result; (5) a
non-NotFound error answered by the owned router's delete call aborts the
teardown with the error returned unchanged; (6) an error — NotFound
included — answered by a declared subnetwork's delete call aborts the
teardown with the error returned unchanged. -/
theorem delete_error_handling_amended (scope : Scope) (s : CloudState)
    (st : NetworkStatus) (e : GCPError) :
    (scope.isSharedVpc = false → alGet scope.networkName s.networks = none →
       Networks.Delete scope s st = ⟨.ok (), s, st, []⟩) ∧
    (∀ r, alGet (Networks.natRouterKey scope) s.routers = some r →
       r.description = ClusterTagKey scope.name →
       alGet (Networks.natRouterKey scope) s.routerDeleteFaults = some .notFound →
       Networks.deleteRouterStep scope s =
         ⟨.ok (), s, [.routerDelete (Networks.natRouterKey scope)]⟩) ∧
    (∀ n, scope.isSharedVpc = false →
       alGet scope.networkName s.networks = some n →
       n.description = ClusterTagKey scope.name →
       n.autoCreateSubnetworks = true →
       alGet (Networks.natRouterKey scope) s.routers = none →
       s.routes = [] →
       alGet scope.networkName s.networkDeleteFaults = some e →
       Networks.Delete scope s st =
         ⟨.error e, s, st, [.networkDelete scope.networkName]⟩) ∧
    (∀ n rt, scope.isSharedVpc = false →
       alGet scope.networkName s.networks = some n →
       n.description = ClusterTagKey scope.name →
       n.autoCreateSubnetworks = true →
       alGet (Networks.natRouterKey scope) s.routers = none →
       s.routes = [(rt.name, rt)] →
       rt.description = k8sNodeRouteTag →
       strEndsWith rt.network scope.networkName = true →
       alGet rt.name s.routeDeleteFaults = some e →
       Networks.Delete scope s st =
         ⟨.error e, s, st, [.routeDelete rt.name]⟩) ∧
    (∀ n r, scope.isSharedVpc = false →
       alGet scope.networkName s.networks = some n →
       n.description = ClusterTagKey scope.name →
       alGet (Networks.natRouterKey scope) s.routers = some r →
       r.description = ClusterTagKey scope.name →
       alGet (Networks.natRouterKey scope) s.routerDeleteFaults = some e →
       isNotFound e = false →
       Networks.Delete scope s st =
         ⟨.error e, s, st, [.routerDelete (Networks.natRouterKey scope)]⟩) ∧
    (∀ n sub, scope.isSharedVpc = false →
       alGet scope.networkName s.networks = some n →
       n.description = ClusterTagKey scope.name →
       n.autoCreateSubnetworks = false →
       scope.subnetworkSpec = [sub] →
       alGet (Networks.natRouterKey scope) s.routers = none →
       (alGet (sub.name, sub.region) s.subnetworks).isSome →
       alGet (sub.name, sub.region) s.subnetDeleteFaults = some e →
       Networks.Delete scope s st =
         ⟨.error e, s, st, [.subnetDelete (sub.name, sub.region)]⟩) := by
  refine ⟨?_, ?_, ?_, ?_, ?_, ?_⟩
  · intro hs hn
    exact Networks.Delete_absent scope s st hs hn
  · intro r hr hd hf
    simp [Networks.deleteRouterStep, hr, hd,
          Networks.routerClientDelete_fault _ _ _ hf, isNotFound]
  · intro n hs hn hd hauto hr hroutes hf
    have h1 := Networks.deleteRouterStep_absent scope s hr
    have h2 := Networks.subnetsDeleteStage_auto scope n s hauto
    have h3 : Networks.routesDeleteStage scope s = ⟨.ok (), s, []⟩ := by
      unfold Networks.routesDeleteStage listRoutesByDescription
      rw [hroutes]
      rfl
    have h4 := Networks.networkDeleteStage_fault scope s e hf
    rw [Networks.Delete_owned scope s st n hs hn hd]
    simp [Networks.opBind, h1, h2, h3, h4]
  · intro n rt hs hn hd hauto hr hroutes hdesc hsuf hf
    have h1 := Networks.deleteRouterStep_absent scope s hr
    have h2 := Networks.subnetsDeleteStage_auto scope n s hauto
    have h3 : Networks.routesDeleteStage scope s =
        ⟨.error e, s, [.routeDelete rt.name]⟩ := by
      unfold Networks.routesDeleteStage listRoutesByDescription
      rw [hroutes]
      simp [hdesc, Networks.deleteRoutesLoop, hsuf,
            Networks.routeClientDelete_fault _ _ _ hf]
    rw [Networks.Delete_owned scope s st n hs hn hd]
    simp [Networks.opBind, h1, h2, h3]
  · intro n r hs hn hd hr hrd hf he
    have h1 : Networks.deleteRouterStep scope s =
        ⟨.error e, s, [.routerDelete (Networks.natRouterKey scope)]⟩ := by
      simp [Networks.deleteRouterStep, hr, hrd,
            Networks.routerClientDelete_fault _ _ _ hf, he]
    rw [Networks.Delete_owned scope s st n hs hn hd]
    simp [Networks.opBind, h1]
  · intro n sub hs hn hd hauto hspec hr hsub hf
    obtain ⟨v, hv⟩ := Option.isSome_iff_exists.mp hsub
    have h1 := Networks.deleteRouterStep_absent scope s hr
    have h2 : Networks.subnetsDeleteStage scope n s =
        ⟨.error e, s, [.subnetDelete (sub.name, sub.region)]⟩ := by
      simp [Networks.subnetsDeleteStage, hauto, hspec,
            Networks.deleteSubnetsLoop, hv, subnetClientDelete, hf]
    rw [Networks.Delete_owned scope s st n hs hn hd]
    simp [Networks.opBind, h1, h2]

/-- A world with an owned network and owned router whose router delete call
answers with a non-NotFound error. -/
def cx5eState : CloudState :=
  { exState with
    routerDeleteFaults := [(("my-network-router", "us-east1"), GCPError.other ("boom"))] }

/-- An owned custom-mode network whose declared subnet is present, with a
NotFound answer injected on the subnet's delete call. -/
def cx5fState : CloudState :=
  { emptyState with
    networks := [("my-network", exNetwork)]
    subnetworks := [(("sub1", "us-east1"), exSubnet)]
    subnetDeleteFaults := [(("sub1", "us-east1"), GCPError.notFound)] }

/-- Witness for claim C5 at concrete faulted worlds. -/
theorem delete_error_handling_witness :
    (Networks.Delete exScope emptyState emptyStatus =
      ⟨.ok (), emptyState, emptyStatus, []⟩) ∧
    (Networks.deleteRouterStep exScope exRouterFaultState =
      ⟨.ok (), exRouterFaultState,
       [.routerDelete (Networks.natRouterKey exScope)]⟩) ∧
    (Networks.Delete exScope cx5bState emptyStatus =
      ⟨.error (.other ("boom")), cx5bState, emptyStatus,
       [.networkDelete exScope.networkName]⟩) ∧
    (Networks.Delete exScope cx5dState emptyStatus =
      ⟨.error (.other ("boom")), cx5dState, emptyStatus,
       [.routeDelete exRoute.name]⟩) ∧
    (Networks.Delete exScope cx5eState emptyStatus =
      ⟨.error (.other ("boom")), cx5eState, emptyStatus,
       [.routerDelete (Networks.natRouterKey exScope)]⟩) ∧
    (Networks.Delete exScope cx5fState emptyStatus =
      ⟨.error GCPError.notFound, cx5fState, emptyStatus,
       [.subnetDelete (exSubnet.name, exSubnet.region)]⟩) := by
  refine ⟨?_, ?_, ?_, ?_, ?_, ?_⟩
  · exact (delete_error_handling_amended exScope emptyState emptyStatus
      GCPError.notFound).1 (by decide) (by decide)
  · exact (delete_error_handling_amended exScope exRouterFaultState emptyStatus
      GCPError.notFound).2.1 exRouter (by decide) (by decide) (by decide)
  · exact (delete_error_handling_amended exScope cx5bState emptyStatus
      (GCPError.other ("boom"))).2.2.1 exAutoNetwork (by decide) (by decide)
      (by decide) (by decide) (by decide) (by decide) (by decide)
  · exact (delete_error_handling_amended exScope cx5dState emptyStatus
      (GCPError.other ("boom"))).2.2.2.1 exAutoNetwork exRoute (by decide)
      (by decide) (by decide) (by decide) (by decide) (by decide) (by decide)
      (by decide) (by decide)
  · exact (delete_error_handling_amended exScope cx5eState emptyStatus
      (GCPError.other ("boom"))).2.2.2.2.1 exNetwork exRouter (by decide)
      (by decide) (by decide) (by decide) (by decide) (by decide) (by decide)
  · exact (delete_error_handling_amended exScope cx5fState emptyStatus
      GCPError.notFound).2.2.2.2.2 exNetwork exSubnet (by decide) (by decide)
      (by decide) (by decide) (by decide) (by decide) (by decide) (by decide)

namespace Networks

/-- Any network delete call of Delete happens under the network ownership
guard. -/
theorem Delete_networkDelete_guard (scope : Scope) (s : CloudState)
    (st : NetworkStatus) (nm : String)
    (hk : Call.networkDelete nm ∈ (Delete scope s st).calls) :
    ∃ n, alGet scope.networkName s.networks = some n ∧
         n.description = ClusterTagKey scope.name := by
  rcases Delete_calls_shape scope s st with hempty | ⟨hs, n, hn, hd, _⟩
  · rw [hempty] at hk
    simp at hk
  · exact ⟨n, hn, hd⟩

/-- Any subnet delete call of Delete happens under the network ownership
guard. -/
theorem Delete_subnetDelete_guard (scope : Scope) (s : CloudState)
    (st : NetworkStatus) (k : String × String)
    (hk : Call.subnetDelete k ∈ (Delete scope s st).calls) :
    ∃ n, alGet scope.networkName s.networks = some n ∧
         n.description = ClusterTagKey scope.name := by
  rcases Delete_calls_shape scope s st with hempty | ⟨hs, n, hn, hd, _⟩
  · rw [hempty] at hk
    simp at hk
  · exact ⟨n, hn, hd⟩

/-- Any route delete call of Delete happens under the network ownership
guard. -/
theorem Delete_routeDelete_guard (scope : Scope) (s : CloudState)
    (st : NetworkStatus) (nm : String)
    (hk : Call.routeDelete nm ∈ (Delete scope s st).calls) :
    ∃ n, alGet scope.networkName s.networks = some n ∧
         n.description = ClusterTagKey scope.name := by
  rcases Delete_calls_shape scope s st with hempty | ⟨hs, n, hn, hd, _⟩
  · rw [hempty] at hk
    simp at hk
  · exact ⟨n, hn, hd⟩

/-- Any router delete call of Delete happens under the router's own
ownership guard. -/
theorem Delete_routerDelete_guard (scope : Scope) (s : CloudState)
    (st : NetworkStatus) (k : String × String)
    (hk : Call.routerDelete k ∈ (Delete scope s st).calls) :
    ∃ r, alGet (natRouterKey scope) s.routers = some r ∧
         r.description = ClusterTagKey scope.name := by
  rcases Delete_calls_shape scope s st with hempty |
    ⟨hs, n, hn, hd, t2, t3, t4, hcalls, h2, ht2, h3, h4, hsucc⟩
  · rw [hempty] at hk
    simp at hk
  · rw [hcalls] at hk
    rcases List.mem_append.mp hk with hk | hk
    · rcases deleteRouterStep_calls scope s with h0 | ⟨h0, hr⟩
      · rw [h0] at hk
        simp at hk
      · exact hr
    · exfalso
      rcases List.mem_append.mp hk with hk | hk
      · obtain ⟨k2, hk2⟩ := h2 _ hk
        simp at hk2
      · rcases List.mem_append.mp hk with hk | hk
        · obtain ⟨nm, hnm, _⟩ := h3 _ hk
          simp at hnm
        · have := h4 _ hk
          simp at this

end Networks

/-- The example world with the NAT router missing. -/
def exRouterlessState : CloudState := { exState with routers := [] }

/-- Claim C1: for every state-changing operation of every component, the
deterministic cluster ownership tag is checked before the operation and is
never bypassed — network, subnet and route deletes require the network's
tag to match; the router delete requires the router's own tag to match;
router adoption (the insert of the NAT router during Reconcile) requires
the fetched network's tag to match; a firewall delete of the sweep requires
the rule to sit on the cluster's network with the cluster name among its
target tags; bastion creation and deletion require the network's tag to
match. -/
theorem ownership_guard_never_bypassed (scope : Scope) (s : CloudState)
    (st : NetworkStatus) :
    (∀ nm, Call.networkDelete nm ∈ (Networks.Delete scope s st).calls →
       ∃ n, alGet scope.networkName s.networks = some n ∧
            n.description = ClusterTagKey scope.name) ∧
    (∀ k, Call.routerDelete k ∈ (Networks.Delete scope s st).calls →
       ∃ r, alGet (Networks.natRouterKey scope) s.routers = some r ∧
            r.description = ClusterTagKey scope.name) ∧
    (∀ k, Call.subnetDelete k ∈ (Networks.Delete scope s st).calls →
       ∃ n, alGet scope.networkName s.networks = some n ∧
            n.description = ClusterTagKey scope.name) ∧
    (∀ nm, Call.routeDelete nm ∈ (Networks.Delete scope s st).calls →
       ∃ n, alGet scope.networkName s.networks = some n ∧
            n.description = ClusterTagKey scope.name) ∧
    (∀ k, Call.routerInsert k ∈ (Networks.Reconcile scope s st).calls →
       ∃ n, (Networks.createOrGetNetwork scope s).res = .ok n ∧
            n.description = ClusterTagKey scope.name) ∧
    (∀ rules nm, Call.firewallDelete nm ∈ (Compute.sweepFirewalls scope rules s).calls →
       ∃ fw, fw ∈ rules ∧ fw.name = nm ∧
         Compute.getFirewallNetworkName fw = .ok scope.networkName ∧
         scope.name ∈ fw.targetTags) ∧
    (∀ k, Call.instanceInsert k ∈ (Compute.ReconcileBastion scope s st).calls →
       ∃ n, alGet scope.networkName s.networks = some n ∧
            n.description = ClusterTagKey scope.name) ∧
    (∀ k, Call.instanceDelete k ∈ (Compute.DeleteBastion scope s st).calls →
       ∃ n, alGet scope.networkName s.networks = some n ∧
            n.description = ClusterTagKey scope.name) := by
  refine ⟨?_, ?_, ?_, ?_, ?_, ?_, ?_, ?_⟩
  · intro nm hk
    exact Networks.Delete_networkDelete_guard scope s st nm hk
  · intro k hk
    exact Networks.Delete_routerDelete_guard scope s st k hk
  · intro k hk
    exact Networks.Delete_subnetDelete_guard scope s st k hk
  · intro nm hk
    exact Networks.Delete_routeDelete_guard scope s st nm hk
  · intro k hk
    exact Networks.Reconcile_routerInsert_guard scope s st k hk
  · intro rules nm hk
    exact (Compute.sweepFirewalls_mem scope rules s nm).mp hk
  · intro k hk
    exact Compute.ReconcileBastion_guard scope s st k hk
  · intro k hk
    exact Compute.DeleteBastion_guard scope s st k hk

/-- Witness for claim C1 at concrete worlds where each guarded operation
actually fires. -/
theorem ownership_guard_witness :
    (∃ n, alGet exScope.networkName exState.networks = some n ∧
          n.description = ClusterTagKey exScope.name) ∧
    (∃ r, alGet (Networks.natRouterKey exScope) exState.routers = some r ∧
          r.description = ClusterTagKey exScope.name) ∧
    (∃ n, (Networks.createOrGetNetwork exScope exRouterlessState).res = .ok n ∧
          n.description = ClusterTagKey exScope.name) ∧
    (∃ fw, fw ∈ [exFirewall] ∧ fw.name = "fw1" ∧
       Compute.getFirewallNetworkName fw = .ok exScope.networkName ∧
       exScope.name ∈ fw.targetTags) ∧
    (∃ n, alGet exScope.networkName exState.networks = some n ∧
          n.description = ClusterTagKey exScope.name) ∧
    (∃ n, alGet exScope.networkName exBastionState.networks = some n ∧
          n.description = ClusterTagKey exScope.name) := by
  refine ⟨?_, ?_, ?_, ?_, ?_, ?_⟩
  · exact (ownership_guard_never_bypassed exScope exState emptyStatus).1
      ("my-network") (by decide)
  · exact (ownership_guard_never_bypassed exScope exState emptyStatus).2.1
      ("my-network-router", "us-east1") (by decide)
  · exact (ownership_guard_never_bypassed exScope exRouterlessState emptyStatus).2.2.2.2.1
      ("my-network-router", "us-east1") (by decide)
  · exact (ownership_guard_never_bypassed exScope exState emptyStatus).2.2.2.2.2.1
      [exFirewall] ("fw1") (by decide)
  · exact (ownership_guard_never_bypassed exScope exState emptyStatus).2.2.2.2.2.2.1
      ("my-cluster-bastion", "us-east1-a") (by decide)
  · exact (ownership_guard_never_bypassed exScope exBastionState emptyStatus).2.2.2.2.2.2.2
      ("my-cluster-bastion", "us-east1-a") (by decide)

/-- Re-applying a write sequence does not change any key's looked-up
value. -/
theorem alGet_applyWrites_twice (ws : List (String × String))
    (m : List (String × String)) (k : String) :
    alGet k (Compute.applyWrites ws (Compute.applyWrites ws m)) =
      alGet k (Compute.applyWrites ws m) := by
  cases h : Compute.lastWrite ws k <;>
    simp [Compute.alGet_applyWrites, h]

/-- Claim C2: running Reconcile twice in succession with no external change
in between issues no provider call at all on the second run — in particular
no Insert or Patch — and leaves the recorded status identical: the network
reconciler's second run returns the identical status object, and the
firewall reconciler's second run leaves every non-mapping status field
equal and the firewall-rules mapping equal as a map (pointwise at every
key, the faithful notion of equality for the Go map it embeds). -/
theorem reconcile_idempotent (scope : Scope) (s : CloudState) (st : NetworkStatus) :
    (Networks.Reconcile scope (Networks.Reconcile scope s st).state
        (Networks.Reconcile scope s st).status).calls = [] ∧
    (Networks.Reconcile scope (Networks.Reconcile scope s st).state
        (Networks.Reconcile scope s st).status).status =
      (Networks.Reconcile scope s st).status ∧
    (Compute.ReconcileFirewalls scope (Compute.ReconcileFirewalls scope s st).state
        (Compute.ReconcileFirewalls scope s st).status).calls = [] ∧
    (∀ k, alGet k (Compute.ReconcileFirewalls scope
            (Compute.ReconcileFirewalls scope s st).state
            (Compute.ReconcileFirewalls scope s st).status).status.firewallRules =
          alGet k (Compute.ReconcileFirewalls scope s st).status.firewallRules) ∧
    (Compute.ReconcileFirewalls scope (Compute.ReconcileFirewalls scope s st).state
        (Compute.ReconcileFirewalls scope s st).status).status.selfLink =
      (Compute.ReconcileFirewalls scope s st).status.selfLink ∧
    (Compute.ReconcileFirewalls scope (Compute.ReconcileFirewalls scope s st).state
        (Compute.ReconcileFirewalls scope s st).status).status.router =
      (Compute.ReconcileFirewalls scope s st).status.router ∧
    (Compute.ReconcileFirewalls scope (Compute.ReconcileFirewalls scope s st).state
        (Compute.ReconcileFirewalls scope s st).status).status.bastionSelfLink =
      (Compute.ReconcileFirewalls scope s st).status.bastionSelfLink ∧
    (Compute.ReconcileFirewalls scope (Compute.ReconcileFirewalls scope s st).state
        (Compute.ReconcileFirewalls scope s st).status).status.bastionStatus =
      (Compute.ReconcileFirewalls scope s st).status.bastionStatus := by
  have h1 := Compute.reconcileFirewallsLoop_status (Compute.getFirewallSpecs scope) s st
  have h2 := Compute.reconcileFirewallsLoop_status (Compute.getFirewallSpecs scope)
    (Compute.reconcileFirewallsLoop (Compute.getFirewallSpecs scope) s st).state
    (Compute.reconcileFirewallsLoop (Compute.getFirewallSpecs scope) s st).status
  have hst := Compute.loopWrites_stable (Compute.getFirewallSpecs scope) s st
  refine ⟨?_, ?_, ?_, ?_, ?_, ?_, ?_, ?_⟩
  · rw [Networks.Reconcile_twice scope s st]
  · rw [Networks.Reconcile_twice scope s st]
  · simp only [Compute.ReconcileFirewalls]
    exact Compute.reconcileFirewallsLoop_all_present _ _ _
      (Compute.reconcileFirewallsLoop_post (Compute.getFirewallSpecs scope) s st)
  · intro k
    simp only [Compute.ReconcileFirewalls]
    rw [h2, hst, h1]
    exact alGet_applyWrites_twice
      (Compute.loopWrites (Compute.getFirewallSpecs scope) s) st.firewallRules k
  · simp only [Compute.ReconcileFirewalls]
    rw [h2]
  · simp only [Compute.ReconcileFirewalls]
    rw [h2]
  · simp only [Compute.ReconcileFirewalls]
    rw [h2]
  · simp only [Compute.ReconcileFirewalls]
    rw [h2]

end CAPG
